import Mathlib

/-!
# Verification of the `aka-yunwu-figurine` orchestration core

Shallow embedding of the Koishi plugin in `src/index.ts` (the variant the
specification's claims reference): per-user concurrency gate
(`processingUsers : Set<string>`), job store (`activeTasks : Map<string,
TaskInfo>` keyed by remote `request_id`), wait-for-image register
(`waitingImages : Map<string, WaitingImage>` keyed by user id), plus the
`setTimeout` timers the code creates for the wait cooldown and for poll
rescheduling.

Modelling conventions:
* The host is a single-threaded event loop; each handler invocation is one
  atomic step of the model.  Remote HTTP results (`ctx.http.post`/`get`) are
  supplied as oracle data on the triggering event: an `Except` for the submit
  call (`.error` = thrown transport error) and an `Option TaskResult` for the
  status query (`none` = `queryTaskStatus` caught an error and returned
  `null`).
* JS `Map`s are association lists.  `Map.set` updates in place preserving
  insertion order; no modelled operation observes iteration order, so the
  model uses remove-then-append, which is observationally equivalent here.
* `setTimeout` handles are consecutive naturals from a counter; `clearTimeout`
  removes the handle.  The poll `setTimeout` captures the `TaskInfo` object in
  its closure; the model carries that value in `pendingPolls`.  (In JS the
  closure and the `activeTasks` entry alias one object, so the in-place
  `pollCount++` is visible through both; the model keeps the live value with
  the scheduled poll, which is the only place the code reads it back.)
* Outbound `session.send` calls are fire-and-forget effects and are assumed
  not to throw (the spec's messaging boundary).  Errors thrown by remote
  calls are modelled by their message string.
* The read-only status commands (`手办化状态`, `文生图状态`) neither mutate
  state nor call the remote API and are omitted; `extractImages` is
  front-end glue whose result (the list of image URLs in the message) is
  event data.
-/

/-- Plugin configuration (the `Config` interface in the source). -/
structure Config where
  apiKey : String
  cooldownTime : Nat
  apiTimeout : Nat
  pollInterval : Nat
  maxPollAttempts : Nat
  enableLog : Bool
  maxImageSize : Nat
  figurinePresets : List String
  defaultStyle : Int
deriving DecidableEq

/-- The submit response (`YunwuApiResponse`); fields the code never reads are
omitted. `request_id` is a string, empty when the remote returned none
(JS falsiness of `response.request_id`). -/
structure YunwuApiResponse where
  status : String
  request_id : String
  queue_position : Int
deriving DecidableEq

/-- One image of a completed task. -/
structure ResultImage where
  url : String
  width : Nat
  height : Nat
  content_type : String
deriving DecidableEq

/-- The status-query response (`TaskResult`).  `images` is `none` when the
JSON lacks the field (JS `undefined`). -/
structure TaskResult where
  seed : Int
  images : Option (List ResultImage)
  prompt : String
  has_nsfw_concepts : List Bool
deriving DecidableEq

/-- `TaskInfo` — one outstanding job. -/
structure TaskInfo where
  requestId : String
  userId : String
  prompt : String
  numImages : Int
  startTime : Nat
  pollCount : Nat
  style : Int
  originalImageUrl : Option String
deriving DecidableEq

/-- `WaitingImage` — a pending wait-for-image entry; `timeout` is the
`setTimeout` handle. -/
structure WaitingImage where
  style : Int
  timeout : Nat
deriving DecidableEq

/-- The mutable plugin state: the three stores plus the outstanding timers. -/
structure PluginState where
  processingUsers : List String
  activeTasks : List (String × TaskInfo)
  waitingImages : List (String × WaitingImage)
  waitTimers : List (Nat × String)
  pendingPolls : List (Nat × TaskInfo)
  nextTimerId : Nat
deriving DecidableEq

def initState : PluginState :=
  { processingUsers := [], activeTasks := [], waitingImages := [],
    waitTimers := [], pendingPolls := [], nextTimerId := 0 }

/-- Observable outbound actions of one handler invocation. -/
inductive Effect where
  | sendText (userId : String) (msg : String)
  | sendImage (userId : String) (url : String)
  | remoteSubmit (prompt : String) (numImages : Int)
  | remoteQuery (requestId : String)
deriving DecidableEq

/-! ## JS map/set primitives over association lists -/

def mapGet {κ α : Type} [BEq κ] (m : List (κ × α)) (k : κ) : Option α :=
  (m.find? (fun p => p.1 == k)).map Prod.snd

def mapHas {κ α : Type} [BEq κ] (m : List (κ × α)) (k : κ) : Bool :=
  (m.find? (fun p => p.1 == k)).isSome

/-- `Map.set`: replace any entry under `k` (order is never observed, so the
updated entry is appended). -/
def mapSet {κ α : Type} [BEq κ] (m : List (κ × α)) (k : κ) (v : α) :
    List (κ × α) :=
  m.filter (fun p => p.1 != k) ++ [(k, v)]

def mapDelete {κ α : Type} [BEq κ] (m : List (κ × α)) (k : κ) :
    List (κ × α) :=
  m.filter (fun p => p.1 != k)

def setHas (s : List String) (u : String) : Bool :=
  s.any (fun v => v == u)

def setAdd (s : List String) (u : String) : List String :=
  if setHas s u then s else s ++ [u]

def setDelete (s : List String) (u : String) : List String :=
  s.filter (fun v => v != u)

/-- JS string truthiness for optional ids: `undefined` and `""` are falsy. -/
def strTruthy (x : Option String) : Option String :=
  match x with
  | some s => if s = "" then none else some s
  | none => none

/-- JS `Number(x) || d` on an optional numeric option: absent (`NaN`) and `0`
fall back to the default. -/
def jsNumOr (x : Option Int) (d : Int) : Int :=
  match x with
  | some v => if v = 0 then d else v
  | none => d

/-- Structural prefix test on character lists (`needle` a prefix of `hay`);
the library's string primitives are avoided because they do not reduce in the
kernel. -/
def charListPrefix : List Char → List Char → Bool
  | [], _ => true
  | _ :: _, [] => false
  | c :: cs, d :: ds => c == d && charListPrefix cs ds

/-- JS `s.startsWith(pre)`. -/
def strStarts (s pre : String) : Bool := charListPrefix pre.toList s.toList

/-- Occurrence test on character lists. -/
def containsSeq (hay needle : List Char) : Bool :=
  match hay with
  | [] => charListPrefix needle []
  | c :: t => charListPrefix needle (c :: t) || containsSeq t needle

/-- JS `hay.includes(needle)`. -/
def strIncludes (hay needle : String) : Bool :=
  containsSeq hay.toList needle.toList

/-- Drop leading whitespace from a character list. -/
def dropLeadingWs : List Char → List Char
  | [] => []
  | c :: cs => if c.isWhitespace then dropLeadingWs cs else c :: cs

/-- JS `s.trim()` (whitespace on both ends). -/
def jsTrim (s : String) : String :=
  String.mk ((dropLeadingWs ((dropLeadingWs s.toList).reverse)).reverse)

/-! ## Pure helpers from the source -/

/-- `processImageUrl`: accepts `http(s)` direct links, rejects inline base64
and anything else by throwing (modelled as `Except.error` of the thrown
message). -/
def processImageUrl (imageUrl : String) : Except String String :=
  if strStarts imageUrl "http://" || strStarts imageUrl "https://" then
    Except.ok imageUrl
  else if strStarts imageUrl "data:image/" then
    Except.error "API不支持base64格式，请发送图片而不是粘贴图片"
  else
    Except.error "不支持的图片格式，请发送图片而不是链接"

/-- JS `list[i]` with an `Int` index: out of range gives `undefined`. -/
def jsIndex (l : List String) (i : Int) : Option String :=
  if i < 0 then none else l.get? i.toNat

/-- JS `x || y` on possibly-undefined strings (empty string is falsy). -/
def orFalsy (x y : Option String) : Option String :=
  match x with
  | some s => if s = "" then y else some s
  | none => y

/-- Interpolating a possibly-undefined JS string. -/
def jsStr (x : Option String) : String :=
  match x with
  | some s => s
  | none => "undefined"

/-- `buildFigurinePrompt`: base prompt plus the selected preset
(`figurinePresets[style-1] || figurinePresets[0]`). -/
def buildFigurinePrompt (cfg : Config) (originalImageUrl : String)
    (style : Int) : String :=
  let preset := jsStr (orFalsy (jsIndex cfg.figurinePresets (style - 1))
    (jsIndex cfg.figurinePresets 0))
  "Transform this image into a high-quality figurine: " ++ originalImageUrl
    ++ ", " ++ preset

/-- The error-message selection in `processImage`'s catch block (the thrown
error is modelled by its message string; the `ETIMEDOUT` code check is folded
into the message test). -/
def pickErrorMessage (m : String) : String :=
  if strIncludes m "request timeout" then
    "处理超时，图片可能过大或网络较慢，请尝试使用较小的图片"
  else if strIncludes m "图片过大" then m
  else if strIncludes m "API不支持" then m
  else if strIncludes m "不支持的图片格式" then m
  else "手办化处理失败，请稍后重试"

/-- HEAD-response data `checkImageSize` inspects (`none` = the HEAD request
threw). -/
structure HeadInfo where
  contentLength : Nat
  contentType : String
deriving DecidableEq

/-- `checkImageSize`'s result record. -/
structure ImageCheck where
  size : Rat
  isValid : Bool
  contentType : Option String
deriving DecidableEq

/-- `checkImageSize`: HEAD the URL, validate content type and size against
`config.maxImageSize`; a failed HEAD request is treated as valid.  (The JS
float arithmetic here — division by `1024*1024` and the two comparisons — is
exact for all reachable magnitudes, so rationals model it precisely.)
This function has no caller anywhere in the plugin. -/
def checkImageSize (cfg : Config) (resp : Option HeadInfo) : ImageCheck :=
  match resp with
  | none => { size := 0, isValid := true, contentType := none }
  | some r =>
    let sizeInMB : Rat := (r.contentLength : Rat) / (1024 * 1024)
    let isValidFormat := strStarts r.contentType "image/jpeg"
      || strStarts r.contentType "image/jpg"
      || strStarts r.contentType "image/png"
    let isValidSize :=
      decide (sizeInMB ≤ (cfg.maxImageSize : Rat) ∧ (1 : Rat)/100 < sizeInMB)
    { size := sizeInMB, isValid := isValidFormat && isValidSize,
      contentType := some r.contentType }

/-! ## State-mutating operations -/

/-- `setTimeout(() => pollTaskStatus(taskInfo), pollInterval*1000)`:
allocate a handle and record the scheduled poll with its captured task. -/
def schedulePoll (s : PluginState) (t : TaskInfo) : PluginState :=
  { s with pendingPolls := s.pendingPolls ++ [(s.nextTimerId, t)],
           nextTimerId := s.nextTimerId + 1 }

/-- `pollTaskStatus(taskInfo)` once the status query has resolved.
`queryResult = none` covers a thrown/failed `queryTaskStatus` (which catches
and returns `null`). -/
def pollTaskStatus (cfg : Config) (now : Nat) (t : TaskInfo)
    (queryResult : Option TaskResult) (s : PluginState) :
    PluginState × List Effect :=
  match queryResult with
  | none =>
    -- query failed: count the attempt, time out or reschedule
    let t' := { t with pollCount := t.pollCount + 1 }
    if t'.pollCount ≥ cfg.maxPollAttempts then
      ({ s with processingUsers := setDelete s.processingUsers t.userId,
                activeTasks := mapDelete s.activeTasks t.requestId },
       [Effect.remoteQuery t.requestId,
        Effect.sendText t.userId "手办化生成超时，请稍后重试"])
    else
      (schedulePoll s t', [Effect.remoteQuery t.requestId])
  | some result =>
    let imgs := match result.images with
      | some l => l
      | none => []
    if imgs.length > 0 then
      -- success: deliver each image, then the summary, then clean up
      ({ s with processingUsers := setDelete s.processingUsers t.userId,
                activeTasks := mapDelete s.activeTasks t.requestId },
       [Effect.remoteQuery t.requestId]
         ++ imgs.map (fun i => Effect.sendImage t.userId i.url)
         ++ [Effect.sendText t.userId ("✅ 手办化完成！\n🎨 风格: "
              ++ toString t.style ++ "\n🖼️ 图片数量: "
              ++ toString imgs.length)])
    else
      -- still running: count the attempt, time out or reschedule,
      -- with a progress notice every 5th attempt
      let t' := { t with pollCount := t.pollCount + 1 }
      if t'.pollCount ≥ cfg.maxPollAttempts then
        ({ s with processingUsers := setDelete s.processingUsers t.userId,
                  activeTasks := mapDelete s.activeTasks t.requestId },
         [Effect.remoteQuery t.requestId,
          Effect.sendText t.userId "手办化生成超时，请稍后重试"])
      else
        (schedulePoll s t',
         [Effect.remoteQuery t.requestId]
           ++ (if t'.pollCount % 5 = 0 then
                 [Effect.sendText t.userId ("⏳ 正在手办化生成中... (已等待 "
                   ++ toString ((now - t.startTime) / 1000) ++ " 秒，风格"
                   ++ toString t.style ++ ")")]
               else []))

/-- `processImage(session, imageUrl, style)`: URL handling, API-key guard,
remote submit, then job insertion and first-poll scheduling.  `submitResult`
is the remote submit oracle (`.error` = the call threw). -/
def processImage (cfg : Config) (now : Nat) (userId : String)
    (imageUrl : String) (style : Int)
    (submitResult : Except String YunwuApiResponse) (s : PluginState) :
    PluginState × List Effect :=
  let processing := Effect.sendText userId "🎨 正在生成手办化图片，请稍候..."
  match processImageUrl imageUrl with
  | Except.error e =>
    ({ s with processingUsers := setDelete s.processingUsers userId },
     [processing, Effect.sendText userId (pickErrorMessage e)])
  | Except.ok processedUrl =>
    if cfg.apiKey = "" ∨ jsTrim cfg.apiKey = "" then
      ({ s with processingUsers := setDelete s.processingUsers userId },
       [processing, Effect.sendText userId "手办化失败: API密钥未配置"])
    else
      let prompt := buildFigurinePrompt cfg processedUrl style
      match submitResult with
      | Except.error e =>
        ({ s with processingUsers := setDelete s.processingUsers userId },
         [processing, Effect.remoteSubmit prompt 1,
          Effect.sendText userId (pickErrorMessage e)])
      | Except.ok response =>
        if response.request_id = "" then
          ({ s with processingUsers := setDelete s.processingUsers userId },
           [processing, Effect.remoteSubmit prompt 1,
            Effect.sendText userId "❌ 手办化任务提交失败，请稍后重试"])
        else
          let t : TaskInfo :=
            { requestId := response.request_id, userId := userId,
              prompt := prompt, numImages := 1, startTime := now,
              pollCount := 0, style := style,
              originalImageUrl := some processedUrl }
          let s1 := { s with
            activeTasks := mapSet s.activeTasks response.request_id t }
          (schedulePoll s1 t,
           [processing, Effect.remoteSubmit prompt 1]
             ++ (if response.queue_position > 0 then
                   [Effect.sendText userId ("📋 手办化任务已提交，当前队列位置: "
                     ++ toString response.queue_position)]
                 else []))

/-- `waitForImage(session, style)`: cancel any previous timer for the user,
start the cooldown timer, record the entry, and return the wait prompt. -/
def waitForImage (cfg : Config) (uid : String) (style : Int)
    (s : PluginState) : PluginState × String :=
  let s1 := match mapGet s.waitingImages uid with
    | some w =>
      { s with waitTimers := s.waitTimers.filter (fun p => p.1 != w.timeout) }
    | none => s
  let tid := s1.nextTimerId
  let s2 := { s1 with
    waitTimers := s1.waitTimers ++ [(tid, uid)],
    nextTimerId := tid + 1,
    waitingImages := mapSet s1.waitingImages uid
      { style := style, timeout := tid } }
  (s2, "请发送一张图片，我将使用风格" ++ toString style ++ "进行手办化处理（"
    ++ toString cfg.cooldownTime ++ "秒内有效）")

/-- The wait-cooldown timer callback: if the handle is still scheduled,
drop the wait entry, release the gate, and send the timeout notice. -/
def waitTimerFire (tid : Nat) (s : PluginState) : PluginState × List Effect :=
  match s.waitTimers.find? (fun p => p.1 == tid) with
  | none => (s, [])
  | some p =>
    ({ s with waitTimers := s.waitTimers.filter (fun q => q.1 != tid),
              waitingImages := mapDelete s.waitingImages p.2,
              processingUsers := setDelete s.processingUsers p.2 },
     [Effect.sendText p.2 "等待超时，请重新发送指令"])

/-- A scheduled poll firing: if the handle is still pending, remove it and run
`pollTaskStatus` on the captured task. -/
def pollFire (cfg : Config) (now : Nat) (pid : Nat)
    (queryResult : Option TaskResult) (s : PluginState) :
    PluginState × List Effect :=
  match mapGet s.pendingPolls pid with
  | none => (s, [])
  | some t =>
    let s1 := { s with
      pendingPolls := s.pendingPolls.filter (fun p => p.1 != pid) }
    pollTaskStatus cfg now t queryResult s1

/-- The `手办化` command action. The third component is the action's return
value (the reply text, or `none` for `undefined`). -/
def figurineCommand (cfg : Config) (now : Nat) (userId : Option String)
    (styleArg : Option Int) (images : List String)
    (submitResult : Except String YunwuApiResponse) (s : PluginState) :
    PluginState × List Effect × Option String :=
  let style := jsNumOr styleArg cfg.defaultStyle
  if style < 1 ∨ style > (cfg.figurinePresets.length : Int) then
    (s, [], some ("风格参数必须在1-" ++ toString cfg.figurinePresets.length
      ++ "之间"))
  else
    match strTruthy userId with
    | none => (s, [], some "参数错误，请检查命令格式")
    | some uid =>
      if setHas s.processingUsers uid then
        (s, [], some "手办化正在处理中，请等待当前任务完成后再试")
      else
        let s1 := { s with processingUsers := setAdd s.processingUsers uid }
        match images with
        | img :: _ =>
          let r := processImage cfg now uid img style submitResult s1
          (r.1, r.2, none)
        | [] =>
          let r := waitForImage cfg uid style s1
          (r.1, [], some r.2)

/-- The `文生图` command action (kept as a fallback in the source; it shares
the gate and the job store). -/
def textCommand (cfg : Config) (now : Nat) (userId : Option String)
    (content : Option String) (numArg : Option Int)
    (submitResult : Except String YunwuApiResponse) (s : PluginState) :
    PluginState × List Effect × Option String :=
  let numImages := jsNumOr numArg 1
  match (content.map jsTrim) with
  | none => (s, [], some "请输入要生成的图片描述（至少2个字符）")
  | some prompt =>
    if prompt = "" ∨ prompt.length < 2 then
      (s, [], some "请输入要生成的图片描述（至少2个字符）")
    else if prompt.length > 500 then
      (s, [], some "提示词过长，请控制在500字符以内")
    else if numImages < 1 ∨ numImages > 4 then
      (s, [], some "图片数量必须在1-4之间")
    else
      match strTruthy userId with
      | none => (s, [], some "参数错误，请检查命令格式")
      | some uid =>
        if setHas s.processingUsers uid then
          (s, [], some "正在生成图片中，请等待当前任务完成")
        else
          let s1 := { s with processingUsers := setAdd s.processingUsers uid }
          let built := buildFigurinePrompt cfg prompt cfg.defaultStyle
          match submitResult with
          | Except.error _ =>
            ({ s1 with processingUsers := setDelete s1.processingUsers uid },
             [Effect.remoteSubmit built numImages],
             some "生成失败，请稍后重试")
          | Except.ok response =>
            if response.request_id = "" then
              ({ s1 with
                 processingUsers := setDelete s1.processingUsers uid },
               [Effect.remoteSubmit built numImages,
                Effect.sendText uid "❌ 任务提交失败，请稍后重试"], none)
            else
              let t : TaskInfo :=
                { requestId := response.request_id, userId := uid,
                  prompt := prompt, numImages := numImages, startTime := now,
                  pollCount := 0, style := cfg.defaultStyle,
                  originalImageUrl := none }
              let s2 := { s1 with
                activeTasks := mapSet s1.activeTasks response.request_id t }
              (schedulePoll s2 t,
               [Effect.remoteSubmit built numImages,
                Effect.sendText uid "🎨 正在生成图片，请稍候..."]
                 ++ (if response.queue_position > 0 then
                       [Effect.sendText uid ("📋 任务已提交，当前队列位置: "
                         ++ toString response.queue_position)]
                     else []),
               none)

/-- The `手办化重置` command: clear the user's gate flag, jobs, and wait
entry (cancelling its timer); scheduled poll timers are NOT cancelled. -/
def resetCommand (userId : Option String) (s : PluginState) :
    PluginState × Option String :=
  match strTruthy userId with
  | none => (s, some "当前没有处理中的任务")
  | some uid =>
    let wasProcessing := setHas s.processingUsers uid
    let s1 := { s with
      processingUsers := setDelete s.processingUsers uid,
      activeTasks := s.activeTasks.filter (fun p => p.2.userId != uid) }
    let s2 := match mapGet s1.waitingImages uid with
      | some w =>
        { s1 with
          waitTimers := s1.waitTimers.filter (fun p => p.1 != w.timeout),
          waitingImages := mapDelete s1.waitingImages uid }
      | none => s1
    (s2, some (if wasProcessing then "已重置处理状态，可以重新使用手办化指令"
               else "当前没有处理中的任务"))

/-- The `ctx.on('message')` listener: if the sender has a wait entry and the
message carries an image, consume the entry (cancel its timer, keep the gate)
and run `processImage` with the stored style. -/
def onMessage (cfg : Config) (now : Nat) (userId : Option String)
    (images : List String) (submitResult : Except String YunwuApiResponse)
    (s : PluginState) : PluginState × List Effect :=
  match strTruthy userId with
  | none => (s, [])
  | some uid =>
    match mapGet s.waitingImages uid with
    | none => (s, [])
    | some w =>
      match images with
      | [] => (s, [])
      | img :: _ =>
        let s1 := { s with
          waitTimers := s.waitTimers.filter (fun p => p.1 != w.timeout),
          waitingImages := mapDelete s.waitingImages uid }
        processImage cfg now uid img w.style submitResult s1

/-- The `ctx.on('dispose')` cleanup: cancel the wait timers of the current
wait entries, clear all three stores; scheduled poll timers are NOT
cancelled. -/
def disposeCleanup (s : PluginState) : PluginState :=
  { s with
    waitTimers := s.waitTimers.filter
      (fun p => !(s.waitingImages.any (fun q => q.2.timeout == p.1))),
    waitingImages := [], processingUsers := [], activeTasks := [] }

deriving instance DecidableEq for Except

/-- External stimuli, each carrying its remote-oracle data. -/
inductive Event where
  | figurineCmd (userId : Option String) (styleArg : Option Int)
      (images : List String) (submitResult : Except String YunwuApiResponse)
      (now : Nat)
  | textCmd (userId : Option String) (content : Option String)
      (numArg : Option Int) (submitResult : Except String YunwuApiResponse)
      (now : Nat)
  | inboundMessage (userId : Option String) (images : List String)
      (submitResult : Except String YunwuApiResponse) (now : Nat)
  | waitTimeout (tid : Nat)
  | pollTimeout (pid : Nat) (queryResult : Option TaskResult) (now : Nat)
  | resetCmd (userId : Option String)
  | dispose
deriving DecidableEq

/-- Result of one event-loop step. -/
structure StepOut where
  state : PluginState
  effects : List Effect
  reply : Option String
deriving DecidableEq

/-- One atomic turn of the host event loop. -/
def step (cfg : Config) (s : PluginState) (e : Event) : StepOut :=
  match e with
  | Event.figurineCmd userId styleArg images submitResult now =>
    let r := figurineCommand cfg now userId styleArg images submitResult s
    { state := r.1, effects := r.2.1, reply := r.2.2 }
  | Event.textCmd userId content numArg submitResult now =>
    let r := textCommand cfg now userId content numArg submitResult s
    { state := r.1, effects := r.2.1, reply := r.2.2 }
  | Event.inboundMessage userId images submitResult now =>
    let r := onMessage cfg now userId images submitResult s
    { state := r.1, effects := r.2, reply := none }
  | Event.waitTimeout tid =>
    let r := waitTimerFire tid s
    { state := r.1, effects := r.2, reply := none }
  | Event.pollTimeout pid queryResult now =>
    let r := pollFire cfg now pid queryResult s
    { state := r.1, effects := r.2, reply := none }
  | Event.resetCmd userId =>
    let r := resetCommand userId s
    { state := r.1, effects := [], reply := r.2 }
  | Event.dispose =>
    { state := disposeCleanup s, effects := [], reply := none }

/-- Run a trace of events from a state. -/
def run (cfg : Config) (s : PluginState) (es : List Event) : PluginState :=
  es.foldl (fun st e => (step cfg st e).state) s

/-! ## Derived views -/

/-- The stored jobs owned by a requester. -/
def userTasks (s : PluginState) (u : String) : List (String × TaskInfo) :=
  s.activeTasks.filter (fun p => p.2.userId == u)

/-- The wait entries owned by a requester (the register is keyed by user, so
this has at most one element once keys are nodup). -/
def userWaits (s : PluginState) (u : String) : List (String × WaitingImage) :=
  s.waitingImages.filter (fun p => p.1 == u)

/-- The scheduled polls whose captured task belongs to a requester. -/
def userPolls (s : PluginState) (u : String) : List (Nat × TaskInfo) :=
  s.pendingPolls.filter (fun p => p.2.userId == u)

/-! ## The reachable-state invariant

`Inv` is the inductive invariant of the event loop in the absence of the
`手办化重置` command and of plugin disposal (both of which leave scheduled
poll timers alive while clearing the stores, breaking it — see the
counterexample for C1). -/

structure StateInv (s : PluginState) : Prop where
  taskKeysNodup : (s.activeTasks.map Prod.fst).Nodup
  waitKeysNodup : (s.waitingImages.map Prod.fst).Nodup
  pollKeysNodup : (s.pendingPolls.map Prod.fst).Nodup
  timerKeysNodup : (s.waitTimers.map Prod.fst).Nodup
  timerFresh : ∀ p ∈ s.waitTimers, p.1 < s.nextTimerId
  pollFresh : ∀ p ∈ s.pendingPolls, p.1 < s.nextTimerId
  taskUnique : ∀ p ∈ s.activeTasks, ∀ q ∈ s.activeTasks,
    p.2.userId = q.2.userId → p.1 = q.1
  taskNotWaiting : ∀ p ∈ s.activeTasks, ∀ q ∈ s.waitingImages,
    q.1 ≠ p.2.userId
  taskGate : ∀ p ∈ s.activeTasks, p.2.userId ∈ s.processingUsers
  waitGate : ∀ q ∈ s.waitingImages, q.1 ∈ s.processingUsers
  pollUnique : ∀ p ∈ s.pendingPolls, ∀ q ∈ s.pendingPolls,
    p.2.userId = q.2.userId → p.1 = q.1
  pollNotWaiting : ∀ p ∈ s.pendingPolls, ∀ q ∈ s.waitingImages,
    q.1 ≠ p.2.userId
  pollTaskKey : ∀ p ∈ s.pendingPolls, ∀ q ∈ s.activeTasks,
    q.2.userId = p.2.userId → q.1 = p.2.requestId
  pollGate : ∀ p ∈ s.pendingPolls, p.2.userId ∈ s.processingUsers
  waitTimer : ∀ q ∈ s.waitingImages, (q.2.timeout, q.1) ∈ s.waitTimers
  timerWait : ∀ p ∈ s.waitTimers,
    ∃ w, (p.2, w) ∈ s.waitingImages ∧ w.timeout = p.1
  gateNotEmpty : "" ∉ s.processingUsers

/-- Events excluded from the no-reset invariant: the `手办化重置` command and
plugin disposal. -/
def isResetOrDispose (e : Event) : Bool :=
  match e with
  | Event.resetCmd _ => true
  | Event.dispose => true
  | _ => false

/-! ## Concrete fixtures used by counterexamples and witnesses -/

def cfg0 : Config :=
  { apiKey := "key", cooldownTime := 30, apiTimeout := 120, pollInterval := 3,
    maxPollAttempts := 40, enableLog := true, maxImageSize := 10,
    figurinePresets := ["preset one", "preset two", "preset three",
      "preset four"],
    defaultStyle := 1 }

def okResp (k : String) (qp : Int) : Except String YunwuApiResponse :=
  Except.ok { status := "IN_QUEUE", request_id := k, queue_position := qp }

def img0 : ResultImage :=
  { url := "http://res/img0.png", width := 512, height := 512,
    content_type := "image/png" }

def doneResult : TaskResult :=
  { seed := 7, images := some [img0], prompt := "p",
    has_nsfw_concepts := [false] }

/-- A trace exhibiting the reset/stale-poll interaction: submit, reset (which
does not cancel the scheduled poll), resubmit, stale poll fires and releases
the requester's gate while the new job is still stored, then a third command
is admitted. -/
def c1trace : List Event :=
  [ Event.figurineCmd (some "A") (some 1) ["http://img1"] (okResp "k1" 0) 100,
    Event.resetCmd (some "A"),
    Event.figurineCmd (some "A") (some 1) ["http://img1"] (okResp "k2" 0) 200,
    Event.pollTimeout 0 (some doneResult) 300,
    Event.figurineCmd (some "A") (some 1) ["http://img1"] (okResp "k3" 0) 400 ]

def wtrace : List Event :=
  [Event.figurineCmd (some "A") (some 2) [] (okResp "" 0) 100]

/-- Fire the (unique) scheduled poll at the head of the pending list. -/
def fireOncePoll (cfg : Config) (now : Nat) (q : Option TaskResult)
    (s : PluginState) : PluginState × List Effect :=
  match s.pendingPolls with
  | [] => (s, [])
  | (pid, _) :: _ => pollFire cfg now pid q s

/-- Fire scheduled polls in sequence, one status-query oracle result per
firing, collecting all effects. -/
def iterPollsSeq (cfg : Config) (now : Nat) :
    List (Option TaskResult) → PluginState → PluginState × List Effect
  | [], s => (s, [])
  | q :: qs, s =>
    let r1 := fireOncePoll cfg now q s
    let r2 := iterPollsSeq cfg now qs r1.1
    (r2.1, r1.2 ++ r2.2)

/-- A status-query outcome that is not a success for `pollTaskStatus`: the
query failed (`none`), or it parsed but the `images` field is missing or an
empty array. -/
def notDoneResult (q : Option TaskResult) : Bool :=
  match q with
  | none => true
  | some r =>
    match r.images with
    | none => true
    | some [] => true
    | some (_ :: _) => false

/-- Recognizes a remote status query among a poll's effects. -/
def isQueryEffect : Effect → Bool
  | Effect.remoteQuery _ => true
  | _ => false

/-- Recognizes the poll-timeout notice to a given requester. -/
def isTimeoutNotice (u : String) : Effect → Bool
  | Effect.sendText v m => v == u && m == "手办化生成超时，请稍后重试"
  | _ => false

/-- Recognizes a result-image delivery. -/
def isImageDelivery : Effect → Bool
  | Effect.sendImage _ _ => true
  | _ => false

def t38 : TaskInfo :=
  { requestId := "kp", userId := "B", prompt := "p", numImages := 1,
    startTime := 50, pollCount := 38, style := 2,
    originalImageUrl := some "http://i" }

def spoll : PluginState :=
  { processingUsers := ["B"], activeTasks := [("kp", t38)],
    waitingImages := [], waitTimers := [], pendingPolls := [(5, t38)],
    nextTimerId := 6 }

def c3state : PluginState :=
  run cfg0 initState
    [ Event.figurineCmd (some "A") (some 1) ["http://img1"] (okResp "k1" 0)
        100,
      Event.dispose ]

def t4 : TaskInfo :=
  { requestId := "k", userId := "A", prompt := "p", numImages := 1,
    startTime := 100, pollCount := 4, style := 1,
    originalImageUrl := none }

def emptyResult : TaskResult :=
  { seed := 1, images := some [], prompt := "p", has_nsfw_concepts := [] }

/-! ## Theorems -/

/-! ## Lemmas about the map/set primitives -/

theorem setHas_iff {g : List String} {u : String} :
    setHas g u = true ↔ u ∈ g := by
  simp [setHas, List.any_eq_true, beq_iff_eq]

theorem mem_setAdd {g : List String} {u v : String} :
    v ∈ setAdd g u ↔ v ∈ g ∨ v = u := by
  unfold setAdd
  by_cases h : setHas g u = true
  · simp only [h, if_true]
    constructor
    · exact fun hv => Or.inl hv
    · rintro (hv | rfl)
      · exact hv
      · exact setHas_iff.mp h
  · simp only [Bool.not_eq_true] at h
    simp [h, List.mem_append]

theorem mem_setDelete {g : List String} {u v : String} :
    v ∈ setDelete g u ↔ v ∈ g ∧ v ≠ u := by
  simp [setDelete, List.mem_filter, bne_iff_ne]

theorem setDelete_setAdd {g : List String} {u : String}
    (h : setHas g u = false) : setDelete (setAdd g u) u = g := by
  have hmem : u ∉ g := fun hm => by simp [setHas_iff.mpr hm] at h
  unfold setAdd
  simp only [h, if_neg, Bool.false_eq_true, if_false]
  unfold setDelete
  rw [List.filter_append]
  have h1 : g.filter (fun v => v != u) = g :=
    List.filter_eq_self.mpr (fun v hv => by
      simp [bne_iff_ne]
      rintro rfl
      exact hmem hv)
  have h2 : [u].filter (fun v => v != u) = [] := by simp
  rw [h1, h2, List.append_nil]

theorem mem_mapDelete {α : Type} {m : List (String × α)} {k : String}
    {p : String × α} : p ∈ mapDelete m k ↔ p ∈ m ∧ p.1 ≠ k := by
  simp [mapDelete, List.mem_filter, bne_iff_ne]

theorem mem_mapSet {α : Type} {m : List (String × α)} {k : String} {v : α}
    {p : String × α} :
    p ∈ mapSet m k v ↔ (p ∈ m ∧ p.1 ≠ k) ∨ p = (k, v) := by
  simp [mapSet, List.mem_append, List.mem_filter, bne_iff_ne]

theorem mapGet_eq_some_mem {κ α : Type} [BEq κ] [LawfulBEq κ]
    {m : List (κ × α)} {k : κ} {v : α} (h : mapGet m k = some v) :
    (k, v) ∈ m := by
  unfold mapGet at h
  cases hf : m.find? (fun p => p.1 == k) with
  | none => simp [hf] at h
  | some p =>
    simp [hf] at h
    have hmem := List.mem_of_find?_eq_some hf
    have hkey := List.find?_some hf
    simp [beq_iff_eq] at hkey
    have : p = (k, v) := by
      cases p with
      | mk a b => simp at hkey h; simp [hkey, h]
    rw [this] at hmem
    exact hmem

theorem mapGet_eq_none_iff {κ α : Type} [BEq κ] [LawfulBEq κ]
    {m : List (κ × α)} {k : κ} :
    mapGet m k = none ↔ ∀ v, (k, v) ∉ m := by
  unfold mapGet
  constructor
  · intro h v hv
    cases hf : m.find? (fun p => p.1 == k) with
    | none =>
      rw [List.find?_eq_none] at hf
      exact absurd (by simp : ((k, v).1 == k) = true) (hf _ hv)
    | some p => simp [hf] at h
  · intro h
    cases hf : m.find? (fun p => p.1 == k) with
    | none => rfl
    | some p =>
      have hmem := List.mem_of_find?_eq_some hf
      have hkey := List.find?_some hf
      simp [beq_iff_eq] at hkey
      cases p with
      | mk a b =>
        simp at hkey
        rw [hkey] at hmem
        exact absurd hmem (h b)

theorem mapGet_eq_some_of_mem {κ α : Type} [BEq κ] [LawfulBEq κ]
    {m : List (κ × α)} {k : κ} {v : α}
    (hmem : (k, v) ∈ m) (hnd : (m.map Prod.fst).Nodup) :
    mapGet m k = some v := by
  induction m with
  | nil => cases hmem
  | cons p rest ih =>
    simp only [List.map_cons, List.nodup_cons] at hnd
    rcases List.mem_cons.mp hmem with rfl | hrest
    · simp [mapGet, List.find?]
    · have hne : p.1 ≠ k := by
        rintro rfl
        exact hnd.1 (List.mem_map.mpr ⟨(p.1, v), hrest, rfl⟩)
      have : (p.1 == k) = false := by simp [hne]
      simp only [mapGet, List.find?, this]
      exact ih hrest hnd.2

theorem keysNodup_filter {κ α : Type} {m : List (κ × α)}
    {f : κ × α → Bool} (h : (m.map Prod.fst).Nodup) :
    ((m.filter f).map Prod.fst).Nodup :=
  ((m.filter_sublist).map Prod.fst).nodup h

theorem keysNodup_mapSet {α : Type} {m : List (String × α)} {k : String}
    {v : α} (h : (m.map Prod.fst).Nodup) :
    ((mapSet m k v).map Prod.fst).Nodup := by
  unfold mapSet
  rw [List.map_append]
  apply List.Nodup.append (keysNodup_filter h) (List.nodup_singleton k)
  intro a ha hb
  simp only [List.map_cons, List.map_nil, List.mem_singleton] at hb
  subst hb
  rcases List.mem_map.mp ha with ⟨p, hp, hpk⟩
  rw [List.mem_filter] at hp
  rw [bne_iff_ne] at hp
  exact hp.2 hpk

theorem keysNodup_append_fresh {α : Type} {l : List (Nat × α)} {n : Nat}
    {t : α} (h : (l.map Prod.fst).Nodup) (hf : ∀ p ∈ l, p.1 < n) :
    (((l ++ [(n, t)]).map Prod.fst)).Nodup := by
  rw [List.map_append]
  apply List.Nodup.append h (List.nodup_singleton n)
  intro a ha hb
  simp only [List.map_cons, List.map_nil, List.mem_singleton] at hb
  rcases List.mem_map.mp ha with ⟨p, hp, hpk⟩
  have hlt := hf p hp
  rw [hpk, hb] at hlt
  exact lt_irrefl n hlt

theorem strTruthy_ne_empty {x : Option String} {u : String}
    (h : strTruthy x = some u) : u ≠ "" := by
  unfold strTruthy at h
  cases x with
  | none => cases h
  | some s =>
    by_cases hs : s = ""
    · simp [hs] at h
    · simp [hs] at h
      rw [← h]
      exact hs

theorem strTruthy_some {u : String} (h : u ≠ "") :
    strTruthy (some u) = some u := by
  simp [strTruthy, h]

/-- A filter that only keeps entries of a single key of a nodup-keyed
association list has at most one element. -/
theorem length_filter_le_one {α : Type} {l : List (String × α)}
    {f : String × α → Bool} (hnd : (l.map Prod.fst).Nodup)
    (huniq : ∀ p ∈ l, ∀ q ∈ l, f p = true → f q = true → p.1 = q.1) :
    (l.filter f).length ≤ 1 := by
  cases hl : l.filter f with
  | nil => simp
  | cons x xs =>
    cases hxs : xs with
    | nil => simp
    | cons y ys =>
      exfalso
      subst hxs
      have hx : x ∈ l.filter f := by rw [hl]; exact List.mem_cons_self _ _
      have hy : y ∈ l.filter f := by
        rw [hl]; exact List.mem_cons_of_mem _ (List.mem_cons_self _ _)
      rw [List.mem_filter] at hx hy
      have hkey : x.1 = y.1 := huniq x hx.1 y hy.1 hx.2 hy.2
      have hnd2 : ((l.filter f).map Prod.fst).Nodup := keysNodup_filter hnd
      rw [hl] at hnd2
      simp only [List.map_cons, List.nodup_cons] at hnd2
      exact hnd2.1 (List.mem_cons.mpr (Or.inl hkey))

theorem inv_initState : StateInv initState := by
  constructor <;> simp [initState]

/-- Inserting a fresh job for a non-busy requester (the success path of
`processImage` and of the `文生图` command) preserves the invariant. -/
theorem inv_insertTask {s : PluginState} {u k : String} {t : TaskInfo}
    (hInv : StateInv s) (hu : setHas s.processingUsers u = false)
    (hne : u ≠ "") (htu : t.userId = u) (htk : t.requestId = k) :
    StateInv
      { processingUsers := setAdd s.processingUsers u,
        activeTasks := mapSet s.activeTasks k t,
        waitingImages := s.waitingImages,
        waitTimers := s.waitTimers,
        pendingPolls := s.pendingPolls ++ [(s.nextTimerId, t)],
        nextTimerId := s.nextTimerId + 1 } := by
  have hungate : u ∉ s.processingUsers := fun hm => by
    simp [setHas_iff.mpr hm] at hu
  have hnotask : ∀ p ∈ s.activeTasks, p.2.userId ≠ u := fun p hp he =>
    hungate (he ▸ hInv.taskGate p hp)
  have hnowait : ∀ q ∈ s.waitingImages, q.1 ≠ u := fun q hq he =>
    hungate (he ▸ hInv.waitGate q hq)
  have hnopoll : ∀ p ∈ s.pendingPolls, p.2.userId ≠ u := fun p hp he =>
    hungate (he ▸ hInv.pollGate p hp)
  refine
    { taskKeysNodup := keysNodup_mapSet hInv.taskKeysNodup
      waitKeysNodup := hInv.waitKeysNodup
      pollKeysNodup := keysNodup_append_fresh hInv.pollKeysNodup hInv.pollFresh
      timerKeysNodup := hInv.timerKeysNodup
      timerFresh := fun p hp => Nat.lt_succ_of_lt (hInv.timerFresh p hp)
      pollFresh := ?_
      taskUnique := ?_
      taskNotWaiting := ?_
      taskGate := ?_
      waitGate := fun q hq => mem_setAdd.mpr (Or.inl (hInv.waitGate q hq))
      pollUnique := ?_
      pollNotWaiting := ?_
      pollTaskKey := ?_
      pollGate := ?_
      waitTimer := hInv.waitTimer
      timerWait := hInv.timerWait
      gateNotEmpty := ?_ }
  · intro p hp
    rcases List.mem_append.mp hp with hold | hnew
    · exact Nat.lt_succ_of_lt (hInv.pollFresh p hold)
    · rw [List.mem_singleton] at hnew
      rw [hnew]
      exact Nat.lt_succ_self _
  · intro p hp q hq he
    rcases mem_mapSet.mp hp with ⟨hpm, _⟩ | rfl
    · rcases mem_mapSet.mp hq with ⟨hqm, _⟩ | rfl
      · exact hInv.taskUnique p hpm q hqm he
      · exact absurd (he.trans htu) (hnotask p hpm)
    · rcases mem_mapSet.mp hq with ⟨hqm, _⟩ | rfl
      · exact absurd (he.symm.trans htu) (hnotask q hqm)
      · rfl
  · intro p hp q hq
    rcases mem_mapSet.mp hp with ⟨hpm, _⟩ | rfl
    · exact hInv.taskNotWaiting p hpm q hq
    · simpa [htu] using hnowait q hq
  · intro p hp
    rcases mem_mapSet.mp hp with ⟨hpm, _⟩ | rfl
    · exact mem_setAdd.mpr (Or.inl (hInv.taskGate p hpm))
    · exact mem_setAdd.mpr (Or.inr (by simp [htu]))
  · intro p hp q hq he
    rcases List.mem_append.mp hp with hpo | hpn
    · rcases List.mem_append.mp hq with hqo | hqn
      · exact hInv.pollUnique p hpo q hqo he
      · rw [List.mem_singleton] at hqn
        subst hqn
        exact absurd (he.trans htu) (hnopoll p hpo)
    · rw [List.mem_singleton] at hpn
      subst hpn
      rcases List.mem_append.mp hq with hqo | hqn
      · exact absurd ((htu ▸ he).symm) (hnopoll q hqo)
      · rw [List.mem_singleton] at hqn
        rw [hqn]
  · intro p hp q hq
    rcases List.mem_append.mp hp with hpo | hpn
    · exact hInv.pollNotWaiting p hpo q hq
    · rw [List.mem_singleton] at hpn
      subst hpn
      simpa [htu] using hnowait q hq
  · intro p hp q hq he
    rcases List.mem_append.mp hp with hpo | hpn
    · rcases mem_mapSet.mp hq with ⟨hqm, _⟩ | rfl
      · exact hInv.pollTaskKey p hpo q hqm he
      · exact absurd (he.symm.trans htu) (hnopoll p hpo)
    · rw [List.mem_singleton] at hpn
      subst hpn
      rcases mem_mapSet.mp hq with ⟨hqm, _⟩ | rfl
      · exact absurd (he.trans htu) (hnotask q hqm)
      · exact htk.symm
  · intro p hp
    rcases List.mem_append.mp hp with hpo | hpn
    · exact mem_setAdd.mpr (Or.inl (hInv.pollGate p hpo))
    · rw [List.mem_singleton] at hpn
      subst hpn
      exact mem_setAdd.mpr (Or.inr htu)
  · intro h
    rcases mem_setAdd.mp h with hg | heq
    · exact hInv.gateNotEmpty hg
    · exact hne heq.symm

/-- Registering a wait entry for a non-busy requester (the no-image path of
the `手办化` command) preserves the invariant. -/
theorem inv_insertWait {s : PluginState} {u : String} {style : Int}
    (hInv : StateInv s) (hu : setHas s.processingUsers u = false)
    (hne : u ≠ "") :
    StateInv
      { processingUsers := setAdd s.processingUsers u,
        activeTasks := s.activeTasks,
        waitingImages := mapSet s.waitingImages u
          { style := style, timeout := s.nextTimerId },
        waitTimers := s.waitTimers ++ [(s.nextTimerId, u)],
        pendingPolls := s.pendingPolls,
        nextTimerId := s.nextTimerId + 1 } := by
  have hungate : u ∉ s.processingUsers := fun hm => by
    simp [setHas_iff.mpr hm] at hu
  have hnotask : ∀ p ∈ s.activeTasks, p.2.userId ≠ u := fun p hp he =>
    hungate (he ▸ hInv.taskGate p hp)
  have hnowait : ∀ q ∈ s.waitingImages, q.1 ≠ u := fun q hq he =>
    hungate (he ▸ hInv.waitGate q hq)
  have hnopoll : ∀ p ∈ s.pendingPolls, p.2.userId ≠ u := fun p hp he =>
    hungate (he ▸ hInv.pollGate p hp)
  refine
    { taskKeysNodup := hInv.taskKeysNodup
      waitKeysNodup := keysNodup_mapSet hInv.waitKeysNodup
      pollKeysNodup := hInv.pollKeysNodup
      timerKeysNodup :=
        keysNodup_append_fresh hInv.timerKeysNodup hInv.timerFresh
      timerFresh := ?_
      pollFresh := fun p hp => Nat.lt_succ_of_lt (hInv.pollFresh p hp)
      taskUnique := hInv.taskUnique
      taskNotWaiting := ?_
      taskGate := fun p hp => mem_setAdd.mpr (Or.inl (hInv.taskGate p hp))
      waitGate := ?_
      pollUnique := hInv.pollUnique
      pollNotWaiting := ?_
      pollTaskKey := hInv.pollTaskKey
      pollGate := fun p hp => mem_setAdd.mpr (Or.inl (hInv.pollGate p hp))
      waitTimer := ?_
      timerWait := ?_
      gateNotEmpty := ?_ }
  · intro p hp
    rcases List.mem_append.mp hp with hold | hnew
    · exact Nat.lt_succ_of_lt (hInv.timerFresh p hold)
    · rw [List.mem_singleton] at hnew
      rw [hnew]
      exact Nat.lt_succ_self _
  · intro p hp q hq
    rcases mem_mapSet.mp hq with ⟨hqm, _⟩ | rfl
    · exact hInv.taskNotWaiting p hp q hqm
    · exact fun he => hnotask p hp he.symm
  · intro q hq
    rcases mem_mapSet.mp hq with ⟨hqm, _⟩ | rfl
    · exact mem_setAdd.mpr (Or.inl (hInv.waitGate q hqm))
    · exact mem_setAdd.mpr (Or.inr rfl)
  · intro p hp q hq
    rcases mem_mapSet.mp hq with ⟨hqm, _⟩ | rfl
    · exact hInv.pollNotWaiting p hp q hqm
    · exact fun he => hnopoll p hp he.symm
  · intro q hq
    rcases mem_mapSet.mp hq with ⟨hqm, hqne⟩ | rfl
    · exact List.mem_append.mpr (Or.inl (hInv.waitTimer q hqm))
    · exact List.mem_append.mpr (Or.inr (List.mem_singleton.mpr rfl))
  · intro p hp
    rcases List.mem_append.mp hp with hold | hnew
    · rcases hInv.timerWait p hold with ⟨w, hw, hwt⟩
      exact ⟨w, mem_mapSet.mpr (Or.inl ⟨hw, hnowait (p.2, w) hw⟩), hwt⟩
    · rw [List.mem_singleton] at hnew
      rw [hnew]
      exact ⟨{ style := style, timeout := s.nextTimerId },
        mem_mapSet.mpr (Or.inr rfl), rfl⟩
  · intro h
    rcases mem_setAdd.mp h with hg | heq
    · exact hInv.gateNotEmpty hg
    · exact hne heq.symm

/-- Two entries of a nodup-keyed association list with the same key are the
same entry. -/
theorem key_inj {κ α : Type} [BEq κ] [LawfulBEq κ] {l : List (κ × α)}
    (hnd : (l.map Prod.fst).Nodup) {k : κ} {v1 v2 : α}
    (h1 : (k, v1) ∈ l) (h2 : (k, v2) ∈ l) : v1 = v2 := by
  have e1 := mapGet_eq_some_of_mem h1 hnd
  have e2 := mapGet_eq_some_of_mem h2 hnd
  rw [e1] at e2
  exact Option.some.inj e2

/-- Removing a requester's wait entry together with its timer and gate flag
(the wait-timer expiry, and the failing branch of a consumed wait) preserves
the invariant. -/
theorem inv_clearWaitUser {s : PluginState} {uid : String} {w : WaitingImage}
    (hInv : StateInv s) (hw : (uid, w) ∈ s.waitingImages) :
    StateInv
      { processingUsers := setDelete s.processingUsers uid,
        activeTasks := s.activeTasks,
        waitingImages := mapDelete s.waitingImages uid,
        waitTimers := s.waitTimers.filter (fun q => q.1 != w.timeout),
        pendingPolls := s.pendingPolls,
        nextTimerId := s.nextTimerId } := by
  refine
    { taskKeysNodup := hInv.taskKeysNodup
      waitKeysNodup := keysNodup_filter hInv.waitKeysNodup
      pollKeysNodup := hInv.pollKeysNodup
      timerKeysNodup := keysNodup_filter hInv.timerKeysNodup
      timerFresh := fun p hp =>
        hInv.timerFresh p (List.mem_of_mem_filter hp)
      pollFresh := hInv.pollFresh
      taskUnique := hInv.taskUnique
      taskNotWaiting := fun p hp q hq =>
        hInv.taskNotWaiting p hp q (mem_mapDelete.mp hq).1
      taskGate := ?_
      waitGate := ?_
      pollUnique := hInv.pollUnique
      pollNotWaiting := fun p hp q hq =>
        hInv.pollNotWaiting p hp q (mem_mapDelete.mp hq).1
      pollTaskKey := hInv.pollTaskKey
      pollGate := ?_
      waitTimer := ?_
      timerWait := ?_
      gateNotEmpty := ?_ }
  · intro p hp
    exact mem_setDelete.mpr ⟨hInv.taskGate p hp,
      fun he => hInv.taskNotWaiting p hp (uid, w) hw (he ▸ rfl)⟩
  · intro q hq
    rcases mem_mapDelete.mp hq with ⟨hqm, hqne⟩
    exact mem_setDelete.mpr ⟨hInv.waitGate q hqm, hqne⟩
  · intro p hp
    exact mem_setDelete.mpr ⟨hInv.pollGate p hp,
      fun he => hInv.pollNotWaiting p hp (uid, w) hw (he ▸ rfl)⟩
  · intro q hq
    rcases mem_mapDelete.mp hq with ⟨hqm, hqne⟩
    rw [List.mem_filter, bne_iff_ne]
    refine ⟨hInv.waitTimer q hqm, ?_⟩
    intro he
    have he2 : q.2.timeout = w.timeout := he
    have h1 := hInv.waitTimer (uid, w) hw
    have h2 := hInv.waitTimer q hqm
    rw [he2] at h2
    exact hqne (key_inj hInv.timerKeysNodup h2 h1)
  · intro p hp
    rw [List.mem_filter, bne_iff_ne] at hp
    rcases hInv.timerWait p hp.1 with ⟨w', hw', hwt⟩
    refine ⟨w', mem_mapDelete.mpr ⟨hw', ?_⟩, hwt⟩
    intro he
    have he2 : p.2 = uid := he
    rw [he2] at hw'
    have hweq : w' = w := key_inj hInv.waitKeysNodup hw' hw
    rw [hweq] at hwt
    exact hp.2 hwt.symm
  · intro h
    exact hInv.gateNotEmpty (mem_setDelete.mp h).1

/-- Consuming a wait entry into a freshly submitted job (image arrival for a
waiting requester, successful submit) preserves the invariant; the gate is
untouched. -/
theorem inv_consumeInsert {s : PluginState} {uid k : String}
    {w : WaitingImage} {t : TaskInfo}
    (hInv : StateInv s) (hw : (uid, w) ∈ s.waitingImages)
    (htu : t.userId = uid) (htk : t.requestId = k) :
    StateInv
      { processingUsers := s.processingUsers,
        activeTasks := mapSet s.activeTasks k t,
        waitingImages := mapDelete s.waitingImages uid,
        waitTimers := s.waitTimers.filter (fun q => q.1 != w.timeout),
        pendingPolls := s.pendingPolls ++ [(s.nextTimerId, t)],
        nextTimerId := s.nextTimerId + 1 } := by
  have hnotask : ∀ p ∈ s.activeTasks, p.2.userId ≠ uid := fun p hp he =>
    hInv.taskNotWaiting p hp (uid, w) hw he.symm
  have hnopoll : ∀ p ∈ s.pendingPolls, p.2.userId ≠ uid := fun p hp he =>
    hInv.pollNotWaiting p hp (uid, w) hw he.symm
  have hgate : uid ∈ s.processingUsers := hInv.waitGate (uid, w) hw
  refine
    { taskKeysNodup := keysNodup_mapSet hInv.taskKeysNodup
      waitKeysNodup := keysNodup_filter hInv.waitKeysNodup
      pollKeysNodup := keysNodup_append_fresh hInv.pollKeysNodup hInv.pollFresh
      timerKeysNodup := keysNodup_filter hInv.timerKeysNodup
      timerFresh := fun p hp =>
        Nat.lt_succ_of_lt (hInv.timerFresh p (List.mem_of_mem_filter hp))
      pollFresh := ?_
      taskUnique := ?_
      taskNotWaiting := ?_
      taskGate := ?_
      waitGate := fun q hq => hInv.waitGate q (mem_mapDelete.mp hq).1
      pollUnique := ?_
      pollNotWaiting := ?_
      pollTaskKey := ?_
      pollGate := ?_
      waitTimer := ?_
      timerWait := ?_
      gateNotEmpty := hInv.gateNotEmpty }
  · intro p hp
    rcases List.mem_append.mp hp with hold | hnew
    · exact Nat.lt_succ_of_lt (hInv.pollFresh p hold)
    · rw [List.mem_singleton] at hnew
      rw [hnew]
      exact Nat.lt_succ_self _
  · intro p hp q hq he
    rcases mem_mapSet.mp hp with ⟨hpm, _⟩ | rfl
    · rcases mem_mapSet.mp hq with ⟨hqm, _⟩ | rfl
      · exact hInv.taskUnique p hpm q hqm he
      · exact absurd (he.trans htu) (hnotask p hpm)
    · rcases mem_mapSet.mp hq with ⟨hqm, _⟩ | rfl
      · exact absurd (he.symm.trans htu) (hnotask q hqm)
      · rfl
  · intro p hp q hq
    rcases mem_mapSet.mp hp with ⟨hpm, _⟩ | rfl
    · exact hInv.taskNotWaiting p hpm q (mem_mapDelete.mp hq).1
    · intro he
      exact (mem_mapDelete.mp hq).2 (he.trans htu)
  · intro p hp
    rcases mem_mapSet.mp hp with ⟨hpm, _⟩ | rfl
    · exact hInv.taskGate p hpm
    · have : (k, t).2.userId = uid := htu
      rw [this]
      exact hgate
  · intro p hp q hq he
    rcases List.mem_append.mp hp with hpo | hpn
    · rcases List.mem_append.mp hq with hqo | hqn
      · exact hInv.pollUnique p hpo q hqo he
      · rw [List.mem_singleton] at hqn
        subst hqn
        exact absurd (he.trans htu) (hnopoll p hpo)
    · rw [List.mem_singleton] at hpn
      subst hpn
      rcases List.mem_append.mp hq with hqo | hqn
      · exact absurd (he.symm.trans htu) (hnopoll q hqo)
      · rw [List.mem_singleton] at hqn
        rw [hqn]
  · intro p hp q hq
    rcases List.mem_append.mp hp with hpo | hpn
    · exact hInv.pollNotWaiting p hpo q (mem_mapDelete.mp hq).1
    · rw [List.mem_singleton] at hpn
      subst hpn
      intro he
      exact (mem_mapDelete.mp hq).2 (he.trans htu)
  · intro p hp q hq he
    rcases List.mem_append.mp hp with hpo | hpn
    · rcases mem_mapSet.mp hq with ⟨hqm, _⟩ | rfl
      · exact hInv.pollTaskKey p hpo q hqm he
      · exact absurd (he.symm.trans htu) (hnopoll p hpo)
    · rw [List.mem_singleton] at hpn
      subst hpn
      rcases mem_mapSet.mp hq with ⟨hqm, _⟩ | rfl
      · exact absurd (he.trans htu) (hnotask q hqm)
      · exact htk.symm
  · intro p hp
    rcases List.mem_append.mp hp with hpo | hpn
    · exact hInv.pollGate p hpo
    · rw [List.mem_singleton] at hpn
      subst hpn
      have : ((s.nextTimerId, t)).2.userId = uid := htu
      rw [this]
      exact hgate
  · intro q hq
    rcases mem_mapDelete.mp hq with ⟨hqm, hqne⟩
    rw [List.mem_filter, bne_iff_ne]
    refine ⟨hInv.waitTimer q hqm, ?_⟩
    intro he
    have he2 : q.2.timeout = w.timeout := he
    have h1 := hInv.waitTimer (uid, w) hw
    have h2 := hInv.waitTimer q hqm
    rw [he2] at h2
    exact hqne (key_inj hInv.timerKeysNodup h2 h1)
  · intro p hp
    rw [List.mem_filter, bne_iff_ne] at hp
    rcases hInv.timerWait p hp.1 with ⟨w', hw', hwt⟩
    refine ⟨w', mem_mapDelete.mpr ⟨hw', ?_⟩, hwt⟩
    intro he
    have he2 : p.2 = uid := he
    rw [he2] at hw'
    have hweq : w' = w := key_inj hInv.waitKeysNodup hw' hw
    rw [hweq] at hwt
    exact hp.2 hwt.symm

/-- A non-terminal poll: the fired handle is replaced by a rescheduled poll
carrying the incremented attempt counter.  Stated for any successor task with
the same owner and request id. -/
theorem inv_pollReschedule {s : PluginState} {pid : Nat} {t t' : TaskInfo}
    (hInv : StateInv s) (hp : (pid, t) ∈ s.pendingPolls)
    (hu : t'.userId = t.userId) (hk : t'.requestId = t.requestId) :
    StateInv
      { processingUsers := s.processingUsers,
        activeTasks := s.activeTasks,
        waitingImages := s.waitingImages,
        waitTimers := s.waitTimers,
        pendingPolls := (s.pendingPolls.filter (fun p => p.1 != pid))
          ++ [(s.nextTimerId, t')],
        nextTimerId := s.nextTimerId + 1 } := by
  refine
    { taskKeysNodup := hInv.taskKeysNodup
      waitKeysNodup := hInv.waitKeysNodup
      pollKeysNodup := keysNodup_append_fresh
        (keysNodup_filter hInv.pollKeysNodup)
        (fun p hpm => hInv.pollFresh p (List.mem_of_mem_filter hpm))
      timerKeysNodup := hInv.timerKeysNodup
      timerFresh := fun p hpm => Nat.lt_succ_of_lt (hInv.timerFresh p hpm)
      pollFresh := ?_
      taskUnique := hInv.taskUnique
      taskNotWaiting := hInv.taskNotWaiting
      taskGate := hInv.taskGate
      waitGate := hInv.waitGate
      pollUnique := ?_
      pollNotWaiting := ?_
      pollTaskKey := ?_
      pollGate := ?_
      waitTimer := hInv.waitTimer
      timerWait := hInv.timerWait
      gateNotEmpty := hInv.gateNotEmpty }
  · intro p hpm
    rcases List.mem_append.mp hpm with hold | hnew
    · exact Nat.lt_succ_of_lt (hInv.pollFresh p (List.mem_of_mem_filter hold))
    · rw [List.mem_singleton] at hnew
      rw [hnew]
      exact Nat.lt_succ_self _
  · intro p hpm q hqm he
    rcases List.mem_append.mp hpm with hpo | hpn
    · rcases List.mem_append.mp hqm with hqo | hqn
      · exact hInv.pollUnique p (List.mem_of_mem_filter hpo) q
          (List.mem_of_mem_filter hqo) he
      · rw [List.mem_singleton] at hqn
        subst hqn
        have heu : p.2.userId = t.userId := he.trans hu
        have := hInv.pollUnique p (List.mem_of_mem_filter hpo) (pid, t) hp heu
        rw [List.mem_filter, bne_iff_ne] at hpo
        exact absurd this hpo.2
    · rw [List.mem_singleton] at hpn
      subst hpn
      rcases List.mem_append.mp hqm with hqo | hqn
      · have heu : q.2.userId = t.userId := he.symm.trans hu
        have := hInv.pollUnique q (List.mem_of_mem_filter hqo) (pid, t) hp heu
        rw [List.mem_filter, bne_iff_ne] at hqo
        exact absurd this hqo.2
      · rw [List.mem_singleton] at hqn
        rw [hqn]
  · intro p hpm q hqm
    rcases List.mem_append.mp hpm with hpo | hpn
    · exact hInv.pollNotWaiting p (List.mem_of_mem_filter hpo) q hqm
    · rw [List.mem_singleton] at hpn
      subst hpn
      intro he
      have he2 : q.1 = t.userId := by
        have : ((s.nextTimerId, t')).2.userId = t.userId := hu
        rw [this] at he
        exact he
      exact hInv.pollNotWaiting (pid, t) hp q hqm he2
  · intro p hpm q hqm he
    rcases List.mem_append.mp hpm with hpo | hpn
    · exact hInv.pollTaskKey p (List.mem_of_mem_filter hpo) q hqm he
    · rw [List.mem_singleton] at hpn
      subst hpn
      have heu : q.2.userId = t.userId := he.trans hu
      have := hInv.pollTaskKey (pid, t) hp q hqm heu
      have hk2 : ((s.nextTimerId, t')).2.requestId = t.requestId := hk
      rw [hk2]
      exact this
  · intro p hpm
    rcases List.mem_append.mp hpm with hpo | hpn
    · exact hInv.pollGate p (List.mem_of_mem_filter hpo)
    · rw [List.mem_singleton] at hpn
      subst hpn
      have hu2 : ((s.nextTimerId, t')).2.userId = t.userId := hu
      rw [hu2]
      exact hInv.pollGate (pid, t) hp

/-- A terminal poll (timeout or success): the fired handle is dropped, the
owner's gate flag is released, and the job entry under the task's request id
is removed. -/
theorem inv_pollTerminal {s : PluginState} {pid : Nat} {t : TaskInfo}
    (hInv : StateInv s) (hp : (pid, t) ∈ s.pendingPolls) :
    StateInv
      { processingUsers := setDelete s.processingUsers t.userId,
        activeTasks := mapDelete s.activeTasks t.requestId,
        waitingImages := s.waitingImages,
        waitTimers := s.waitTimers,
        pendingPolls := s.pendingPolls.filter (fun p => p.1 != pid),
        nextTimerId := s.nextTimerId } := by
  refine
    { taskKeysNodup := keysNodup_filter hInv.taskKeysNodup
      waitKeysNodup := hInv.waitKeysNodup
      pollKeysNodup := keysNodup_filter hInv.pollKeysNodup
      timerKeysNodup := hInv.timerKeysNodup
      timerFresh := hInv.timerFresh
      pollFresh := fun p hpm =>
        hInv.pollFresh p (List.mem_of_mem_filter hpm)
      taskUnique := fun p hpm q hqm he => hInv.taskUnique p
        (mem_mapDelete.mp hpm).1 q (mem_mapDelete.mp hqm).1 he
      taskNotWaiting := fun p hpm q hqm =>
        hInv.taskNotWaiting p (mem_mapDelete.mp hpm).1 q hqm
      taskGate := ?_
      waitGate := ?_
      pollUnique := fun p hpm q hqm he => hInv.pollUnique p
        (List.mem_of_mem_filter hpm) q (List.mem_of_mem_filter hqm) he
      pollNotWaiting := fun p hpm q hqm =>
        hInv.pollNotWaiting p (List.mem_of_mem_filter hpm) q hqm
      pollTaskKey := fun p hpm q hqm he => hInv.pollTaskKey p
        (List.mem_of_mem_filter hpm) q (mem_mapDelete.mp hqm).1 he
      pollGate := ?_
      waitTimer := hInv.waitTimer
      timerWait := hInv.timerWait
      gateNotEmpty := ?_ }
  · intro q hqm
    rcases mem_mapDelete.mp hqm with ⟨hq, hqne⟩
    refine mem_setDelete.mpr ⟨hInv.taskGate q hq, ?_⟩
    intro he
    exact hqne (hInv.pollTaskKey (pid, t) hp q hq he)
  · intro q hqm
    refine mem_setDelete.mpr ⟨hInv.waitGate q hqm, ?_⟩
    intro he
    exact hInv.pollNotWaiting (pid, t) hp q hqm he
  · intro p hpm
    rw [List.mem_filter, bne_iff_ne] at hpm
    refine mem_setDelete.mpr ⟨hInv.pollGate p hpm.1, ?_⟩
    intro he
    exact hpm.2 (hInv.pollUnique p hpm.1 (pid, t) hp he)
  · intro h
    exact hInv.gateNotEmpty (mem_setDelete.mp h).1

/-- `processImage` invoked by the command path (gate just acquired for a
previously non-busy requester) preserves the invariant. -/
theorem inv_processImage_after_add {cfg : Config} {now : Nat}
    {uid img : String} {style : Int}
    {submitResult : Except String YunwuApiResponse} {s : PluginState}
    (hInv : StateInv s) (h : setHas s.processingUsers uid = false)
    (hne : uid ≠ "") :
    StateInv (processImage cfg now uid img style submitResult
      { s with processingUsers := setAdd s.processingUsers uid }).1 := by
  rcases hpu : processImageUrl img with e | purl
  · unfold processImage
    rw [hpu]
    try dsimp only
    rw [setDelete_setAdd h]
    exact hInv
  · by_cases hkey : cfg.apiKey = "" ∨ jsTrim cfg.apiKey = ""
    · unfold processImage
      rw [hpu]
      try dsimp only
      rw [if_pos hkey]
      try dsimp only
      rw [setDelete_setAdd h]
      exact hInv
    · rcases submitResult with e | response
      · unfold processImage
        rw [hpu]
        try dsimp only
        rw [if_neg hkey]
        try dsimp only
        rw [setDelete_setAdd h]
        exact hInv
      · by_cases hid : response.request_id = ""
        · unfold processImage
          rw [hpu]
          try dsimp only
          rw [if_neg hkey]
          try dsimp only
          rw [if_pos hid]
          try dsimp only
          rw [setDelete_setAdd h]
          exact hInv
        · unfold processImage
          rw [hpu]
          try dsimp only
          rw [if_neg hkey]
          try dsimp only
          rw [if_neg hid]
          exact inv_insertTask hInv h hne rfl rfl

/-- `processImage` invoked by the message-listener path (wait entry just
consumed, gate still held) preserves the invariant. -/
theorem inv_processImage_after_consume {cfg : Config} {now : Nat}
    {uid img : String} {w : WaitingImage}
    {submitResult : Except String YunwuApiResponse} {s : PluginState}
    (hInv : StateInv s) (hw : (uid, w) ∈ s.waitingImages) :
    StateInv (processImage cfg now uid img w.style submitResult
      { s with
        waitTimers := s.waitTimers.filter (fun p => p.1 != w.timeout),
        waitingImages := mapDelete s.waitingImages uid }).1 := by
  rcases hpu : processImageUrl img with e | purl
  · unfold processImage
    rw [hpu]
    exact inv_clearWaitUser hInv hw
  · by_cases hkey : cfg.apiKey = "" ∨ jsTrim cfg.apiKey = ""
    · unfold processImage
      rw [hpu]
      try dsimp only
      rw [if_pos hkey]
      exact inv_clearWaitUser hInv hw
    · rcases submitResult with e | response
      · unfold processImage
        rw [hpu]
        try dsimp only
        rw [if_neg hkey]
        exact inv_clearWaitUser hInv hw
      · by_cases hid : response.request_id = ""
        · unfold processImage
          rw [hpu]
          try dsimp only
          rw [if_neg hkey]
          try dsimp only
          rw [if_pos hid]
          exact inv_clearWaitUser hInv hw
        · unfold processImage
          rw [hpu]
          try dsimp only
          rw [if_neg hkey]
          try dsimp only
          rw [if_neg hid]
          exact inv_consumeInsert hInv hw rfl rfl

/-- `pollTaskStatus` run on the state from which the fired handle was just
removed preserves the invariant. -/
theorem inv_pollTaskStatus {cfg : Config} {now : Nat} {t : TaskInfo}
    {q : Option TaskResult} {s : PluginState} {pid : Nat}
    (hInv : StateInv s) (hp : (pid, t) ∈ s.pendingPolls) :
    StateInv (pollTaskStatus cfg now t q
      { s with
        pendingPolls := s.pendingPolls.filter (fun p => p.1 != pid) }).1 := by
  rcases q with _ | result
  · unfold pollTaskStatus
    try dsimp only
    by_cases hmax : t.pollCount + 1 ≥ cfg.maxPollAttempts
    · rw [if_pos hmax]
      exact inv_pollTerminal hInv hp
    · rw [if_neg hmax]
      exact inv_pollReschedule hInv hp rfl rfl
  · unfold pollTaskStatus
    try dsimp only
    by_cases himg :
        (match result.images with
          | some l => l
          | none => []).length > 0
    · rw [if_pos himg]
      exact inv_pollTerminal hInv hp
    · rw [if_neg himg]
      try dsimp only
      by_cases hmax : t.pollCount + 1 ≥ cfg.maxPollAttempts
      · rw [if_pos hmax]
        exact inv_pollTerminal hInv hp
      · rw [if_neg hmax]
        exact inv_pollReschedule hInv hp rfl rfl

set_option maxHeartbeats 1000000 in
/-- Every event other than reset/dispose preserves the invariant. -/
theorem inv_step {cfg : Config} {s : PluginState} {e : Event}
    (hInv : StateInv s) (he : isResetOrDispose e = false) :
    StateInv (step cfg s e).state := by
  cases e with
  | figurineCmd userId styleArg images submitResult now =>
    dsimp only [step]
    unfold figurineCommand
    try dsimp only
    by_cases hstyle : jsNumOr styleArg cfg.defaultStyle < 1 ∨
        jsNumOr styleArg cfg.defaultStyle > (cfg.figurinePresets.length : Int)
    · rw [if_pos hstyle]
      exact hInv
    · rw [if_neg hstyle]
      rcases hu : strTruthy userId with _ | uid
      · exact hInv
      ·
        try dsimp only
        by_cases hbusy : setHas s.processingUsers uid = true
        · rw [if_pos hbusy]
          exact hInv
        · rw [if_neg hbusy]
          have hfalse : setHas s.processingUsers uid = false := by
            cases hsb : setHas s.processingUsers uid
            · rfl
            · exact absurd hsb hbusy
          try dsimp only
          rcases images with _ | ⟨img, rest⟩
          · have hwnone : mapGet s.waitingImages uid = none :=
              mapGet_eq_none_iff.mpr (fun v hv => by
                have := setHas_iff.mpr (hInv.waitGate (uid, v) hv)
                rw [hfalse] at this
                cases this)
            unfold waitForImage
            try dsimp only
            rw [hwnone]
            try dsimp only
            exact inv_insertWait hInv hfalse (strTruthy_ne_empty hu)
          · try dsimp only
            exact inv_processImage_after_add hInv hfalse
              (strTruthy_ne_empty hu)
  | textCmd userId content numArg submitResult now =>
    dsimp only [step]
    unfold textCommand
    rcases content with _ | c
    · exact hInv
    · rw [Option.map_some']
      try dsimp only
      by_cases hp1 : jsTrim c = "" ∨ (jsTrim c).length < 2
      · rw [if_pos hp1]
        exact hInv
      · rw [if_neg hp1]
        try dsimp only
        by_cases hp2 : (jsTrim c).length > 500
        · rw [if_pos hp2]
          exact hInv
        · rw [if_neg hp2]
          try dsimp only
          by_cases hp3 : jsNumOr numArg 1 < 1 ∨ jsNumOr numArg 1 > 4
          · rw [if_pos hp3]
            exact hInv
          · rw [if_neg hp3]
            rcases hu : strTruthy userId with _ | uid
            · exact hInv
            ·
              try dsimp only
              by_cases hbusy : setHas s.processingUsers uid = true
              · rw [if_pos hbusy]
                exact hInv
              · rw [if_neg hbusy]
                have hfalse : setHas s.processingUsers uid = false := by
                  cases hsb : setHas s.processingUsers uid
                  · rfl
                  · exact absurd hsb hbusy
                try dsimp only
                rcases submitResult with e | response
                · try dsimp only
                  rw [setDelete_setAdd hfalse]
                  exact hInv
                · try dsimp only
                  by_cases hid : response.request_id = ""
                  · rw [if_pos hid]
                    try dsimp only
                    rw [setDelete_setAdd hfalse]
                    exact hInv
                  · rw [if_neg hid]
                    exact inv_insertTask hInv hfalse
                      (strTruthy_ne_empty hu) rfl rfl
  | inboundMessage userId images submitResult now =>
    dsimp only [step]
    unfold onMessage
    rcases hu : strTruthy userId with _ | uid
    · exact hInv
    ·
      try dsimp only
      rcases hw : mapGet s.waitingImages uid with _ | w
      · exact hInv
      ·
        try dsimp only
        rcases images with _ | ⟨img, rest⟩
        · exact hInv
        · exact inv_processImage_after_consume hInv (mapGet_eq_some_mem hw)
  | waitTimeout tid =>
    dsimp only [step]
    unfold waitTimerFire
    rcases hf : s.waitTimers.find? (fun p => p.1 == tid) with _ | p
    · rw [hf]
      exact hInv
    · rw [hf]
      try dsimp only
      have hpmem := List.mem_of_find?_eq_some hf
      have hpkey := List.find?_some hf
      rw [beq_iff_eq] at hpkey
      rcases hInv.timerWait p hpmem with ⟨w, hw, hwt⟩
      have htidw : tid = w.timeout := by rw [hwt, hpkey]
      rw [htidw]
      exact inv_clearWaitUser hInv hw
  | pollTimeout pid q now =>
    dsimp only [step]
    unfold pollFire
    rcases hf : mapGet s.pendingPolls pid with _ | t
    · exact hInv
    · try dsimp only
      exact inv_pollTaskStatus hInv (mapGet_eq_some_mem hf)
  | resetCmd userId => simp [isResetOrDispose] at he
  | dispose => simp [isResetOrDispose] at he

/-- The invariant holds along any trace free of reset/dispose. -/
theorem inv_run {cfg : Config} {tr : List Event} {s : PluginState}
    (hInv : StateInv s) (h : ∀ e ∈ tr, isResetOrDispose e = false) :
    StateInv (run cfg s tr) := by
  induction tr generalizing s with
  | nil => exact hInv
  | cons e es ih =>
    exact ih (inv_step hInv (h e (List.mem_cons_self e es)))
      (fun e' he' => h e' (List.mem_cons_of_mem _ he'))

/-- A requester owning a job or a wait entry is marked busy. -/
theorem owner_in_gate {s : PluginState} (hInv : StateInv s) {u : String}
    (h : userTasks s u ≠ [] ∨ userWaits s u ≠ []) :
    u ∈ s.processingUsers := by
  rcases h with h | h
  · rcases List.exists_mem_of_ne_nil _ h with ⟨p, hp⟩
    rw [userTasks, List.mem_filter, beq_iff_eq] at hp
    exact hp.2 ▸ hInv.taskGate p hp.1
  · rcases List.exists_mem_of_ne_nil _ h with ⟨q, hq⟩
    rw [userWaits, List.mem_filter, beq_iff_eq] at hq
    exact hq.2 ▸ hInv.waitGate q hq.1

/-- Under the invariant, a requester owns at most one job or wait entry in
total. -/
theorem inv_count_le_one {s : PluginState} (hInv : StateInv s) (u : String) :
    (userTasks s u).length + (userWaits s u).length ≤ 1 := by
  by_cases hw : userWaits s u = []
  · rw [hw]
    simp only [List.length_nil, Nat.add_zero]
    exact length_filter_le_one hInv.taskKeysNodup (fun p hp q hq hfp hfq => by
      rw [beq_iff_eq] at hfp hfq
      exact hInv.taskUnique p hp q hq (hfp.trans hfq.symm))
  · rcases List.exists_mem_of_ne_nil _ hw with ⟨q, hq⟩
    rw [userWaits, List.mem_filter, beq_iff_eq] at hq
    have htasks : userTasks s u = [] := by
      rw [userTasks, List.filter_eq_nil_iff]
      intro p hp hbeq
      rw [beq_iff_eq] at hbeq
      exact hInv.taskNotWaiting p hp q hq.1 (hq.2.trans hbeq.symm)
    rw [htasks]
    simp only [List.length_nil, Nat.zero_add]
    exact length_filter_le_one hInv.waitKeysNodup (fun p hp q' hq' hfp hfq => by
      rw [beq_iff_eq] at hfp hfq
      exact hfp.trans hfq.symm)

/-- A `手办化` command with a valid nonzero style from a busy requester is
rejected with the busy reply and leaves everything untouched. -/
theorem figurineCommand_busy {cfg : Config} {now : Nat} {u : String}
    {v : Int} {images : List String}
    {sr : Except String YunwuApiResponse} {s : PluginState}
    (hmem : u ∈ s.processingUsers) (hne : u ≠ "") (hv : v ≠ 0)
    (hrange : ¬(v < 1 ∨ v > (cfg.figurinePresets.length : Int))) :
    figurineCommand cfg now (some u) (some v) images sr s =
      (s, [], some "手办化正在处理中，请等待当前任务完成后再试") := by
  unfold figurineCommand
  have hj : jsNumOr (some v) cfg.defaultStyle = v := by simp [jsNumOr, hv]
  rw [hj, if_neg hrange, strTruthy_some hne]
  try dsimp only
  rw [if_pos (setHas_iff.mpr hmem)]

/-- C1 counterexample: after the five-event trace `c1trace` — all of whose
events are ordinary stimuli of the plugin — requester "A" owns TWO jobs in
the Job Store ("k2" and "k3") at once, so "at most one Job or Wait Entry
exists for R at every reachable state" is false of the code.  The mechanism:
the reset command clears the store and the gate but does not cancel the
already-scheduled poll timer; when that stale poll reaches a terminal branch
it releases A's gate while A's new job is still stored, so a further command
is admitted and submits a second concurrent job. -/
theorem figurine_single_owner_cex :
    (userTasks (run cfg0 initState c1trace) "A").length = 2 := by decide

/-- C1 (amended): in every state reachable without the reset command and
without plugin disposal, at most one Job or Wait Entry exists per requester,
and while a requester owns one, a `手办化` command from it with a valid
nonzero style returns the AlreadyBusy reply, performs no remote call and no
send (empty effect list), and changes no state. -/
theorem figurine_single_owner (cfg : Config) (tr : List Event)
    (htr : ∀ e ∈ tr, isResetOrDispose e = false) :
    (∀ u, (userTasks (run cfg initState tr) u).length
        + (userWaits (run cfg initState tr) u).length ≤ 1) ∧
    (∀ u now v images sr,
      (userTasks (run cfg initState tr) u ≠ [] ∨
        userWaits (run cfg initState tr) u ≠ []) →
      v ≠ 0 → ¬(v < 1 ∨ v > (cfg.figurinePresets.length : Int)) →
      figurineCommand cfg now (some u) (some v) images sr
          (run cfg initState tr) =
        (run cfg initState tr, [],
          some "手办化正在处理中，请等待当前任务完成后再试")) := by
  have hInv : StateInv (run cfg initState tr) := inv_run inv_initState htr
  constructor
  · exact fun u => inv_count_le_one hInv u
  · intro u now v images sr hown hv hrange
    have hmem := owner_in_gate hInv hown
    exact figurineCommand_busy hmem
      (fun he => hInv.gateNotEmpty (he ▸ hmem)) hv hrange

/-- Witness for C1's amended theorem at a concrete trace: one image-less
command, which leaves "A" owning a wait entry. -/
theorem figurine_single_owner_witness :
    (∀ e ∈ wtrace, isResetOrDispose e = false) ∧
    ((∀ u, (userTasks (run cfg0 initState wtrace) u).length
        + (userWaits (run cfg0 initState wtrace) u).length ≤ 1) ∧
    (∀ u now v images sr,
      (userTasks (run cfg0 initState wtrace) u ≠ [] ∨
        userWaits (run cfg0 initState wtrace) u ≠ []) →
      v ≠ 0 → ¬(v < 1 ∨ v > (cfg0.figurinePresets.length : Int)) →
      figurineCommand cfg0 now (some u) (some v) images sr
          (run cfg0 initState wtrace) =
        (run cfg0 initState wtrace, [],
          some "手办化正在处理中，请等待当前任务完成后再试"))) :=
  ⟨by decide, figurine_single_owner cfg0 wtrace (by decide)⟩

/-- A progress notice never coincides with the timeout notice. -/
theorem progress_ne_timeout (a b : String) :
    ("⏳ 正在手办化生成中... (已等待 " ++ a ++ " 秒，风格" ++ b ++ ")")
      ≠ "手办化生成超时，请稍后重试" := by
  intro h
  have h1 : ("⏳ 正在手办化生成中... (已等待 " ++ a ++ " 秒，风格" ++ b
      ++ ")").data.head? = some '⏳' := rfl
  rw [h] at h1
  exact absurd h1 (by decide)

theorem iterPollsSeq_empty (cfg : Config) (now : Nat) :
    ∀ (qs : List (Option TaskResult)) (s : PluginState),
    s.pendingPolls = [] → iterPollsSeq cfg now qs s = (s, []) := by
  intro qs
  induction qs with
  | nil => intro s h; rfl
  | cons q qs ih =>
    intro s h
    unfold iterPollsSeq fireOncePoll
    rw [h]
    try dsimp only
    rw [ih s h]
    rfl

/-- A poll fired on any unsuccessful status outcome at the attempt limit:
the timeout notice is sent after the query, the gate is released, the job
removed and nothing rescheduled — identically for the transport-error branch
and the still-running branch. -/
theorem fireOnce_notDone_terminal (cfg : Config) (now : Nat)
    (q : Option TaskResult) (s : PluginState) (pid : Nat) (t : TaskInfo)
    (hp : s.pendingPolls = [(pid, t)])
    (hq : notDoneResult q = true)
    (hmax : t.pollCount + 1 ≥ cfg.maxPollAttempts) :
    fireOncePoll cfg now q s =
      ({ s with processingUsers := setDelete s.processingUsers t.userId,
                activeTasks := mapDelete s.activeTasks t.requestId,
                pendingPolls := [] },
       [Effect.remoteQuery t.requestId,
        Effect.sendText t.userId "手办化生成超时，请稍后重试"]) := by
  have hget : mapGet s.pendingPolls pid = some t := by
    rw [hp]
    simp [mapGet, List.find?]
  have hfilter : s.pendingPolls.filter (fun p => p.1 != pid) = [] := by
    rw [hp]
    simp
  have hfire : fireOncePoll cfg now q s = pollFire cfg now pid q s := by
    rw [fireOncePoll, hp]
  rw [hfire]
  unfold pollFire
  rw [hget]
  try dsimp only
  rcases q with _ | r
  · unfold pollTaskStatus
    try dsimp only
    rw [if_pos hmax, hfilter]
  · obtain ⟨sd, io, pr, nc⟩ := r
    rcases io with _ | l
    · unfold pollTaskStatus
      try dsimp only
      rw [if_pos hmax, hfilter]
      rfl
    · rcases l with _ | ⟨x, xs⟩
      · unfold pollTaskStatus
        try dsimp only
        rw [if_pos hmax, hfilter]
        rfl
      · exact absurd hq (by simp [notDoneResult])

/-- A poll fired on any unsuccessful status outcome below the attempt limit:
the handle is replaced by one carrying the incremented counter, exactly one
remote query is made, and neither the timeout notice nor any result image is
sent. -/
theorem fireOnce_notDone_reschedule (cfg : Config) (now : Nat)
    (q : Option TaskResult) (s : PluginState) (pid : Nat) (t : TaskInfo)
    (hp : s.pendingPolls = [(pid, t)])
    (hq : notDoneResult q = true)
    (hmax : ¬(t.pollCount + 1 ≥ cfg.maxPollAttempts)) :
    (fireOncePoll cfg now q s).1 =
      { s with
          pendingPolls :=
            [(s.nextTimerId, { t with pollCount := t.pollCount + 1 })],
          nextTimerId := s.nextTimerId + 1 } ∧
    List.countP isQueryEffect (fireOncePoll cfg now q s).2 = 1 ∧
    List.countP (isTimeoutNotice t.userId) (fireOncePoll cfg now q s).2
      = 0 ∧
    List.countP isImageDelivery (fireOncePoll cfg now q s).2 = 0 := by
  have hget : mapGet s.pendingPolls pid = some t := by
    rw [hp]
    simp [mapGet, List.find?]
  have hfilter : s.pendingPolls.filter (fun p => p.1 != pid) = [] := by
    rw [hp]
    simp
  have hfire : fireOncePoll cfg now q s = pollFire cfg now pid q s := by
    rw [fireOncePoll, hp]
  have hne := progress_ne_timeout (toString ((now - t.startTime) / 1000))
    (toString t.style)
  rcases q with _ | r
  · have he : fireOncePoll cfg now none s =
        (schedulePoll
          { s with pendingPolls :=
              s.pendingPolls.filter (fun p => p.1 != pid) }
          { t with pollCount := t.pollCount + 1 },
         [Effect.remoteQuery t.requestId]) := by
      rw [hfire]
      unfold pollFire
      rw [hget]
      try dsimp only
      unfold pollTaskStatus
      try dsimp only
      rw [if_neg hmax]
    rw [he]
    refine ⟨?_, ?_, ?_, ?_⟩
    · try dsimp only
      rw [hfilter]
      rfl
    · simp [isQueryEffect]
    · simp [isTimeoutNotice]
    · simp [isImageDelivery]
  · obtain ⟨sd, io, pr, nc⟩ := r
    have hio : io = none ∨ io = some [] := by
      rcases io with _ | l
      · exact Or.inl rfl
      · rcases l with _ | ⟨x, xs⟩
        · exact Or.inr rfl
        · exact absurd hq (by simp [notDoneResult])
    have he : fireOncePoll cfg now
        (some { seed := sd, images := io, prompt := pr,
                has_nsfw_concepts := nc }) s =
        (schedulePoll
          { s with pendingPolls :=
              s.pendingPolls.filter (fun p => p.1 != pid) }
          { t with pollCount := t.pollCount + 1 },
         [Effect.remoteQuery t.requestId]
           ++ (if (t.pollCount + 1) % 5 = 0 then
                 [Effect.sendText t.userId ("⏳ 正在手办化生成中... (已等待 "
                   ++ toString ((now - t.startTime) / 1000) ++ " 秒，风格"
                   ++ toString t.style ++ ")")]
               else [])) := by
      rcases hio with h2 | h2 <;> subst h2 <;>
        (rw [hfire]
         unfold pollFire
         rw [hget]
         try dsimp only
         unfold pollTaskStatus
         try dsimp only
         rw [if_neg hmax]
         rfl)
    rw [he]
    refine ⟨?_, ?_, ?_, ?_⟩
    · try dsimp only
      rw [hfilter]
      rfl
    · by_cases hmod : (t.pollCount + 1) % 5 = 0
      · rw [if_pos hmod]
        simp [isQueryEffect]
      · rw [if_neg hmod]
        simp [isQueryEffect]
    · by_cases hmod : (t.pollCount + 1) % 5 = 0
      · rw [if_pos hmod]
        simp [isTimeoutNotice, hne]
      · rw [if_neg hmod]
        simp [isTimeoutNotice]
    · by_cases hmod : (t.pollCount + 1) % 5 = 0
      · rw [if_pos hmod]
        simp [isImageDelivery]
      · rw [if_neg hmod]
        simp [isImageDelivery]

theorem iterPollsSeq_timeout (cfg : Config) (now : Nat) :
    ∀ (qs : List (Option TaskResult)) (s : PluginState) (pid : Nat)
      (t : TaskInfo),
    s.pendingPolls = [(pid, t)] →
    (∀ q ∈ qs, notDoneResult q = true) →
    t.pollCount + qs.length = cfg.maxPollAttempts →
    0 < qs.length →
    (iterPollsSeq cfg now qs s).1 =
      { s with processingUsers := setDelete s.processingUsers t.userId,
               activeTasks := mapDelete s.activeTasks t.requestId,
               pendingPolls := [],
               nextTimerId := s.nextTimerId + (qs.length - 1) } ∧
    List.countP isQueryEffect (iterPollsSeq cfg now qs s).2 = qs.length ∧
    List.countP (isTimeoutNotice t.userId) (iterPollsSeq cfg now qs s).2
      = 1 ∧
    List.countP isImageDelivery (iterPollsSeq cfg now qs s).2 = 0 ∧
    (∃ es, (iterPollsSeq cfg now qs s).2 =
      es ++ [Effect.sendText t.userId "手办化生成超时，请稍后重试"]) := by
  intro qs
  induction qs with
  | nil =>
    intro s pid t hp hq hcnt hpos
    cases hpos
  | cons q qs ih =>
    intro s pid t hp hq hcnt hpos
    have hq1 : notDoneResult q = true := hq q (List.mem_cons_self _ _)
    have hiter : iterPollsSeq cfg now (q :: qs) s =
        ((iterPollsSeq cfg now qs (fireOncePoll cfg now q s).1).1,
         (fireOncePoll cfg now q s).2
           ++ (iterPollsSeq cfg now qs (fireOncePoll cfg now q s).1).2) :=
      rfl
    cases qs with
    | nil =>
      have hmax : t.pollCount + 1 ≥ cfg.maxPollAttempts := by
        simp only [List.length_cons, List.length_nil] at hcnt
        omega
      have hft := fireOnce_notDone_terminal cfg now q s pid t hp hq1 hmax
      have hrest : iterPollsSeq cfg now ([] : List (Option TaskResult))
          (fireOncePoll cfg now q s).1 =
          ((fireOncePoll cfg now q s).1, []) := rfl
      rw [hiter, hrest]
      try dsimp only
      rw [hft]
      refine ⟨by simp, ?_, ?_, ?_, ?_⟩
      · simp [isQueryEffect, isTimeoutNotice]
      · simp [isTimeoutNotice]
      · simp [isImageDelivery]
      · exact ⟨[Effect.remoteQuery t.requestId], by simp⟩
    | cons q2 qs2 =>
      have hmax : ¬(t.pollCount + 1 ≥ cfg.maxPollAttempts) := by
        simp only [List.length_cons] at hcnt
        omega
      rcases fireOnce_notDone_reschedule cfg now q s pid t hp hq1 hmax with
        ⟨hs1, hc1, hc2, hc3⟩
      have hp2 : (fireOncePoll cfg now q s).1.pendingPolls =
          [(s.nextTimerId, { t with pollCount := t.pollCount + 1 })] := by
        rw [hs1]
      have hcnt2 : ({ t with pollCount := t.pollCount + 1 } :
          TaskInfo).pollCount + (q2 :: qs2).length = cfg.maxPollAttempts := by
        simp only [List.length_cons] at hcnt ⊢
        try dsimp only
        omega
      rcases ih (fireOncePoll cfg now q s).1 s.nextTimerId
        { t with pollCount := t.pollCount + 1 } hp2
        (fun q' hq' => hq q' (List.mem_cons_of_mem _ hq'))
        hcnt2 (Nat.succ_pos _) with ⟨ihs, ihq, iht, ihi, ihex⟩
      have ihs2 : (iterPollsSeq cfg now (q2 :: qs2)
          (fireOncePoll cfg now q s).1).1 =
          { (fireOncePoll cfg now q s).1 with
            processingUsers := setDelete
              (fireOncePoll cfg now q s).1.processingUsers t.userId,
            activeTasks := mapDelete
              (fireOncePoll cfg now q s).1.activeTasks t.requestId,
            pendingPolls := [],
            nextTimerId := (fireOncePoll cfg now q s).1.nextTimerId
              + ((q2 :: qs2).length - 1) } := ihs
      have iht2 : List.countP (isTimeoutNotice t.userId)
          (iterPollsSeq cfg now (q2 :: qs2)
            (fireOncePoll cfg now q s).1).2 = 1 := iht
      rcases ihex with ⟨es2, hes2⟩
      have hes3 : (iterPollsSeq cfg now (q2 :: qs2)
          (fireOncePoll cfg now q s).1).2 =
          es2 ++ [Effect.sendText t.userId "手办化生成超时，请稍后重试"] := hes2
      rw [hiter]
      try dsimp only
      refine ⟨?_, ?_, ?_, ?_, ?_⟩
      · rw [ihs2, hs1]
        try dsimp only
        simp only [List.length_cons]
        congr 1
        omega
      · rw [List.countP_append, hc1, ihq]
        simp only [List.length_cons]
        omega
      · rw [List.countP_append, hc2, iht2]
      · rw [List.countP_append, hc3, ihi]
      · exact ⟨(fireOncePoll cfg now q s).2 ++ es2,
          by rw [hes3, List.append_assoc]⟩

/-- C2: for a job with one scheduled poll whose status queries never return a
non-empty images array — each query may fail (transport/parse error), parse
with no `images` field, or parse with an empty array, in any mixture — the
poll chain terminates: exactly `maxPollAttempts - pollCount` polls run (one
remote query each: the attempt counter advances by one per unsuccessful
poll, so at most `maxPollAttempts` polls occur), exactly one timeout notice
is sent and it is the last effect, no result image is ever sent, the gate is
released, the Job is removed, no poll remains scheduled, and every later
firing is a no-op. -/
theorem poll_attempts_bounded (cfg : Config) (now : Nat) (s : PluginState)
    (pid : Nat) (t : TaskInfo) (qs : List (Option TaskResult))
    (hp : s.pendingPolls = [(pid, t)])
    (hq : ∀ q ∈ qs, notDoneResult q = true)
    (hn : t.pollCount + qs.length = cfg.maxPollAttempts)
    (hpos : 0 < qs.length) :
    (iterPollsSeq cfg now qs s).1.pendingPolls = [] ∧
    (iterPollsSeq cfg now qs s).1.activeTasks
      = mapDelete s.activeTasks t.requestId ∧
    (iterPollsSeq cfg now qs s).1.processingUsers
      = setDelete s.processingUsers t.userId ∧
    List.countP isQueryEffect (iterPollsSeq cfg now qs s).2 = qs.length ∧
    List.countP (isTimeoutNotice t.userId) (iterPollsSeq cfg now qs s).2
      = 1 ∧
    List.countP isImageDelivery (iterPollsSeq cfg now qs s).2 = 0 ∧
    (∃ es, (iterPollsSeq cfg now qs s).2 =
      es ++ [Effect.sendText t.userId "手办化生成超时，请稍后重试"]) ∧
    (∀ qs2, iterPollsSeq cfg now qs2 (iterPollsSeq cfg now qs s).1
      = ((iterPollsSeq cfg now qs s).1, [])) := by
  rcases iterPollsSeq_timeout cfg now qs s pid t hp hq hn hpos with
    ⟨hs, h1, h2, h3, h4⟩
  refine ⟨by rw [hs], by rw [hs], by rw [hs], h1, h2, h3, h4, ?_⟩
  intro qs2
  exact iterPollsSeq_empty cfg now qs2 _ (by rw [hs])

/-- Witness for C2 at a concrete near-timeout state: two polls remain, the
first a transport error and the second a parsed still-running response with
an empty images array (so the still-running branch performs the at-limit
termination). -/
theorem poll_attempts_bounded_witness :
    spoll.pendingPolls = [(5, t38)] ∧
    (∀ q ∈ [none, some emptyResult], notDoneResult q = true) ∧
    t38.pollCount + ([none, some emptyResult] :
      List (Option TaskResult)).length = cfg0.maxPollAttempts ∧
    0 < ([none, some emptyResult] : List (Option TaskResult)).length ∧
    ((iterPollsSeq cfg0 300 [none, some emptyResult]
        spoll).1.pendingPolls = [] ∧
     (iterPollsSeq cfg0 300 [none, some emptyResult] spoll).1.activeTasks
       = mapDelete spoll.activeTasks t38.requestId ∧
     (iterPollsSeq cfg0 300 [none, some emptyResult]
        spoll).1.processingUsers
       = setDelete spoll.processingUsers t38.userId ∧
     List.countP isQueryEffect
       (iterPollsSeq cfg0 300 [none, some emptyResult] spoll).2 =
       ([none, some emptyResult] : List (Option TaskResult)).length ∧
     List.countP (isTimeoutNotice t38.userId)
       (iterPollsSeq cfg0 300 [none, some emptyResult] spoll).2 = 1 ∧
     List.countP isImageDelivery
       (iterPollsSeq cfg0 300 [none, some emptyResult] spoll).2 = 0 ∧
     (∃ es, (iterPollsSeq cfg0 300 [none, some emptyResult] spoll).2 =
       es ++ [Effect.sendText t38.userId "手办化生成超时，请稍后重试"]) ∧
     (∀ qs2, iterPollsSeq cfg0 300 qs2
        (iterPollsSeq cfg0 300 [none, some emptyResult] spoll).1
       = ((iterPollsSeq cfg0 300 [none, some emptyResult] spoll).1, []))) :=
  ⟨by decide, by decide, by decide, by decide,
   poll_attempts_bounded cfg0 300 spoll 5 t38 [none, some emptyResult]
     (by decide) (by decide) (by decide) (by decide)⟩

/-- C3: after disposal the Job Store (and every other store) is empty, yet
the already-scheduled poll for job "k1" is NOT a no-op when it fires: it
re-queries the remote API and sends messages (here the result images and the
completion summary) instead of detecting that the Job is gone.  This
contradicts the spec's requirement that such polls detect the missing Job,
send nothing, and no-op. -/
theorem stale_poll_not_noop :
    c3state.activeTasks = [] ∧ c3state.processingUsers = [] ∧
    c3state.waitingImages = [] ∧
    (pollFire cfg0 300 0 (some doneResult) c3state).2 =
      [Effect.remoteQuery "k1", Effect.sendImage "A" "http://res/img0.png",
       Effect.sendText "A" "✅ 手办化完成！\n🎨 风格: 1\n🖼️ 图片数量: 1"] := by
  decide

/-- C4: once the image URL is usable and the API key configured, (a) a thrown
submit call releases the gate, sends exactly one failure notice after the
progress message, inserts no Job and schedules no poll; (b) likewise for a
response with an empty `request_id`; (c) a Job is inserted and the first poll
scheduled exactly when the submit response carries a nonempty `request_id`;
(d) any submit oracle that changes the Job Store must be such a response. -/
theorem job_insert_only_after_submit (cfg : Config) (now : Nat)
    (uid url purl : String) (style : Int) (s : PluginState)
    (hurl : processImageUrl url = Except.ok purl)
    (hkey : ¬(cfg.apiKey = "" ∨ jsTrim cfg.apiKey = "")) :
    (∀ e, processImage cfg now uid url style (Except.error e) s =
      ({ s with processingUsers := setDelete s.processingUsers uid },
       [Effect.sendText uid "🎨 正在生成手办化图片，请稍候...",
        Effect.remoteSubmit (buildFigurinePrompt cfg purl style) 1,
        Effect.sendText uid (pickErrorMessage e)])) ∧
    (∀ r, r.request_id = "" →
      processImage cfg now uid url style (Except.ok r) s =
      ({ s with processingUsers := setDelete s.processingUsers uid },
       [Effect.sendText uid "🎨 正在生成手办化图片，请稍候...",
        Effect.remoteSubmit (buildFigurinePrompt cfg purl style) 1,
        Effect.sendText uid "❌ 手办化任务提交失败，请稍后重试"])) ∧
    (∀ r, r.request_id ≠ "" →
      processImage cfg now uid url style (Except.ok r) s =
      (schedulePoll
        { s with activeTasks := (mapSet s.activeTasks r.request_id
          { requestId := r.request_id, userId := uid,
            prompt := buildFigurinePrompt cfg purl style, numImages := 1,
            startTime := now, pollCount := 0, style := style,
            originalImageUrl := some purl }) }
        { requestId := r.request_id, userId := uid,
          prompt := buildFigurinePrompt cfg purl style, numImages := 1,
          startTime := now, pollCount := 0, style := style,
          originalImageUrl := some purl },
       [Effect.sendText uid "🎨 正在生成手办化图片，请稍候...",
        Effect.remoteSubmit (buildFigurinePrompt cfg purl style) 1]
         ++ (if r.queue_position > 0 then
               [Effect.sendText uid ("📋 手办化任务已提交，当前队列位置: "
                 ++ toString r.queue_position)]
             else []))) ∧
    (∀ sr, (processImage cfg now uid url style sr s).1.activeTasks
        ≠ s.activeTasks →
      ∃ r, sr = Except.ok r ∧ r.request_id ≠ "") := by
  refine ⟨?_, ?_, ?_, ?_⟩
  · intro e
    unfold processImage
    rw [hurl]
    try dsimp only
    rw [if_neg hkey]
  · intro r hr
    unfold processImage
    rw [hurl]
    try dsimp only
    rw [if_neg hkey]
    try dsimp only
    rw [if_pos hr]
  · intro r hr
    unfold processImage
    rw [hurl]
    try dsimp only
    rw [if_neg hkey]
    try dsimp only
    rw [if_neg hr]
  · intro sr hch
    rcases sr with e | r
    · exfalso
      apply hch
      unfold processImage
      rw [hurl]
      try dsimp only
      rw [if_neg hkey]
    · by_cases hr : r.request_id = ""
      · exfalso
        apply hch
        unfold processImage
        rw [hurl]
        try dsimp only
        rw [if_neg hkey]
        try dsimp only
        rw [if_pos hr]
      · exact ⟨r, rfl, hr⟩

/-- Witness for C4 at concrete inputs. -/
theorem job_insert_only_after_submit_witness :
    processImageUrl "http://img1" = Except.ok "http://img1" ∧
    ¬(cfg0.apiKey = "" ∨ jsTrim cfg0.apiKey = "") ∧
    (∀ e, processImage cfg0 100 "A" "http://img1" 1 (Except.error e)
        initState =
      ({ initState with
          processingUsers := setDelete initState.processingUsers "A" },
       [Effect.sendText "A" "🎨 正在生成手办化图片，请稍候...",
        Effect.remoteSubmit (buildFigurinePrompt cfg0 "http://img1" 1) 1,
        Effect.sendText "A" (pickErrorMessage e)])) :=
  ⟨by decide, by decide,
   (job_insert_only_after_submit cfg0 100 "A" "http://img1" "http://img1" 1
     initState (by decide) (by decide)).1⟩

theorem find?_eq_of_mem_nodup {κ α : Type} [BEq κ] [LawfulBEq κ]
    {l : List (κ × α)} {k : κ} {v : α}
    (hmem : (k, v) ∈ l) (hnd : (l.map Prod.fst).Nodup) :
    l.find? (fun p => p.1 == k) = some (k, v) := by
  induction l with
  | nil => cases hmem
  | cons p rest ih =>
    simp only [List.map_cons, List.nodup_cons] at hnd
    rcases List.mem_cons.mp hmem with rfl | hrest
    · simp [List.find?]
    · have hne : p.1 ≠ k := by
        rintro rfl
        exact hnd.1 (List.mem_map.mpr ⟨(p.1, v), hrest, rfl⟩)
      have hb : (p.1 == k) = false := by simp [hne]
      simp only [List.find?, hb]
      exact ih hrest hnd.2

theorem find?_filter_ne {κ α : Type} [BEq κ] [LawfulBEq κ]
    (l : List (κ × α)) (k : κ) :
    (l.filter (fun p => p.1 != k)).find? (fun p => p.1 == k) = none := by
  rw [List.find?_eq_none]
  intro x hx
  rw [List.mem_filter, bne_iff_ne] at hx
  simp [hx.2]

theorem mapGet_mapDelete_self {κ α : Type} [BEq κ] [LawfulBEq κ]
    (m : List (κ × α)) (k : κ) : mapGet (mapDelete m k) k = none := by
  unfold mapGet mapDelete
  rw [find?_filter_ne]
  rfl

theorem mapGet_mapSet_self {κ α : Type} [BEq κ] [LawfulBEq κ]
    (m : List (κ × α)) (k : κ) (v : α) :
    mapGet (mapSet m k v) k = some v := by
  unfold mapGet mapSet
  rw [List.find?_append, find?_filter_ne]
  simp [List.find?]

theorem processImage_waitTimers (cfg : Config) (now : Nat)
    (uid img : String) (style : Int)
    (sr : Except String YunwuApiResponse) (s : PluginState) :
    (processImage cfg now uid img style sr s).1.waitTimers = s.waitTimers := by
  rcases hpu : processImageUrl img with e | purl
  · unfold processImage
    rw [hpu]
  · unfold processImage
    rw [hpu]
    try dsimp only
    by_cases hkey : cfg.apiKey = "" ∨ jsTrim cfg.apiKey = ""
    · rw [if_pos hkey]
    · rw [if_neg hkey]
      rcases sr with e | r
      · rfl
      · try dsimp only
        by_cases hid : r.request_id = ""
        · rw [if_pos hid]
        · rw [if_neg hid]
          rfl

/-- C5: when an image message arrives from a requester with an outstanding
wait entry (and submission succeeds), the entry's timer is cancelled, the
entry is removed, submission proceeds with the entry's stored style, and the
Concurrency Gate membership is untouched throughout the transfer: the final
state's `processingUsers` equals the initial one, the wait entry is gone, and
the new Job carries the stored style. -/
theorem consume_transfers_ownership (cfg : Config) (now : Nat)
    (uid img purl : String) (w : WaitingImage) (rest : List String)
    (r : YunwuApiResponse) (s : PluginState)
    (hne : uid ≠ "")
    (hw : mapGet s.waitingImages uid = some w)
    (hurl : processImageUrl img = Except.ok purl)
    (hkey : ¬(cfg.apiKey = "" ∨ jsTrim cfg.apiKey = ""))
    (hid : r.request_id ≠ "") :
    onMessage cfg now (some uid) (img :: rest) (Except.ok r) s =
      (schedulePoll
        { s with
          waitTimers := s.waitTimers.filter (fun p => p.1 != w.timeout),
          waitingImages := mapDelete s.waitingImages uid,
          activeTasks := (mapSet s.activeTasks r.request_id
            { requestId := r.request_id, userId := uid,
              prompt := buildFigurinePrompt cfg purl w.style, numImages := 1,
              startTime := now, pollCount := 0, style := w.style,
              originalImageUrl := some purl }) }
        { requestId := r.request_id, userId := uid,
          prompt := buildFigurinePrompt cfg purl w.style, numImages := 1,
          startTime := now, pollCount := 0, style := w.style,
          originalImageUrl := some purl },
       [Effect.sendText uid "🎨 正在生成手办化图片，请稍候...",
        Effect.remoteSubmit (buildFigurinePrompt cfg purl w.style) 1]
         ++ (if r.queue_position > 0 then
               [Effect.sendText uid ("📋 手办化任务已提交，当前队列位置: "
                 ++ toString r.queue_position)]
             else [])) ∧
    (onMessage cfg now (some uid) (img :: rest)
        (Except.ok r) s).1.processingUsers = s.processingUsers ∧
    mapGet (onMessage cfg now (some uid) (img :: rest)
        (Except.ok r) s).1.waitingImages uid = none ∧
    mapGet (onMessage cfg now (some uid) (img :: rest)
        (Except.ok r) s).1.activeTasks r.request_id =
      some ({ requestId := r.request_id, userId := uid,
              prompt := buildFigurinePrompt cfg purl w.style, numImages := 1,
              startTime := now, pollCount := 0, style := w.style,
              originalImageUrl := some purl } : TaskInfo) := by
  have hmain : onMessage cfg now (some uid) (img :: rest) (Except.ok r) s =
      (schedulePoll
        { s with
          waitTimers := s.waitTimers.filter (fun p => p.1 != w.timeout),
          waitingImages := mapDelete s.waitingImages uid,
          activeTasks := (mapSet s.activeTasks r.request_id
            { requestId := r.request_id, userId := uid,
              prompt := buildFigurinePrompt cfg purl w.style, numImages := 1,
              startTime := now, pollCount := 0, style := w.style,
              originalImageUrl := some purl }) }
        { requestId := r.request_id, userId := uid,
          prompt := buildFigurinePrompt cfg purl w.style, numImages := 1,
          startTime := now, pollCount := 0, style := w.style,
          originalImageUrl := some purl },
       [Effect.sendText uid "🎨 正在生成手办化图片，请稍候...",
        Effect.remoteSubmit (buildFigurinePrompt cfg purl w.style) 1]
         ++ (if r.queue_position > 0 then
               [Effect.sendText uid ("📋 手办化任务已提交，当前队列位置: "
                 ++ toString r.queue_position)]
             else [])) := by
    unfold onMessage
    rw [strTruthy_some hne]
    try dsimp only
    rw [hw]
    try dsimp only
    unfold processImage
    rw [hurl]
    try dsimp only
    rw [if_neg hkey]
    try dsimp only
    rw [if_neg hid]
  refine ⟨hmain, ?_, ?_, ?_⟩
  · rw [hmain]
    rfl
  · rw [hmain]
    try dsimp only
    exact mapGet_mapDelete_self _ _
  · rw [hmain]
    try dsimp only
    exact mapGet_mapSet_self _ _ _

/-- Witness for C5: the wait entry created by an image-less command for "A"
(style 2, timer handle 0) is consumed by a subsequent image message. -/
theorem consume_transfers_ownership_witness :
    ("A" : String) ≠ "" ∧
    mapGet (run cfg0 initState wtrace).waitingImages "A" =
      some { style := 2, timeout := 0 } ∧
    processImageUrl "http://pic" = Except.ok "http://pic" ∧
    ¬(cfg0.apiKey = "" ∨ jsTrim cfg0.apiKey = "") ∧
    ("kk" : String) ≠ "" ∧
    (onMessage cfg0 110 (some "A") ["http://pic"]
        (okResp "kk" 3) (run cfg0 initState wtrace)).1.processingUsers =
      (run cfg0 initState wtrace).processingUsers :=
  ⟨by decide, by decide, by decide, by decide, by decide,
   ((consume_transfers_ownership cfg0 110 "A" "http://pic" "http://pic"
      { style := 2, timeout := 0 } []
      { status := "IN_QUEUE", request_id := "kk", queue_position := 3 }
      (run cfg0 initState wtrace) (by decide) (by decide) (by decide)
      (by decide) (by decide)).2).1⟩

/-- C6: when a wait entry's timer fires, the entry is removed, the gate for
that requester is released, and the timeout notice is sent — and exactly
once: after the expiry, firing the same handle again and consuming are both
no-ops; conversely after an image message consumed the entry, the expiry
handle is a no-op.  (In the single-threaded host exactly one of
expiry/consume can run first, so one of the two outcomes occurs, never
both.) -/
theorem wait_expiry_exactly_once (cfg : Config) (tid : Nat) (uid : String)
    (w : WaitingImage) (s : PluginState)
    (hne : uid ≠ "")
    (hw : mapGet s.waitingImages uid = some w)
    (htid : w.timeout = tid)
    (ht : (tid, uid) ∈ s.waitTimers)
    (hndT : (s.waitTimers.map Prod.fst).Nodup) :
    waitTimerFire tid s =
      ({ s with waitTimers := s.waitTimers.filter (fun q => q.1 != tid),
                waitingImages := mapDelete s.waitingImages uid,
                processingUsers := setDelete s.processingUsers uid },
       [Effect.sendText uid "等待超时，请重新发送指令"]) ∧
    (waitTimerFire tid (waitTimerFire tid s).1 =
      ((waitTimerFire tid s).1, [])) ∧
    (∀ now imgs sr, onMessage cfg now (some uid) imgs sr
        (waitTimerFire tid s).1 = ((waitTimerFire tid s).1, [])) ∧
    (∀ now img rest sr,
      waitTimerFire tid
          (onMessage cfg now (some uid) (img :: rest) sr s).1 =
        ((onMessage cfg now (some uid) (img :: rest) sr s).1, [])) := by
  have hfind : s.waitTimers.find? (fun p => p.1 == tid) = some (tid, uid) :=
    find?_eq_of_mem_nodup ht hndT
  have ha : waitTimerFire tid s =
      ({ s with waitTimers := s.waitTimers.filter (fun q => q.1 != tid),
                waitingImages := mapDelete s.waitingImages uid,
                processingUsers := setDelete s.processingUsers uid },
       [Effect.sendText uid "等待超时，请重新发送指令"]) := by
    unfold waitTimerFire
    rw [hfind]
  refine ⟨ha, ?_, ?_, ?_⟩
  · rw [ha]
    try dsimp only
    unfold waitTimerFire
    rw [find?_filter_ne]
  · intro now imgs sr
    rw [ha]
    try dsimp only
    unfold onMessage
    rw [strTruthy_some hne]
    try dsimp only
    rw [mapGet_mapDelete_self]
  · intro now img rest sr
    have hXw : (onMessage cfg now (some uid) (img :: rest) sr s).1.waitTimers
        = s.waitTimers.filter (fun q => q.1 != tid) := by
      unfold onMessage
      rw [strTruthy_some hne]
      try dsimp only
      rw [hw]
      try dsimp only
      rw [processImage_waitTimers]
      try dsimp only
      rw [htid]
    unfold waitTimerFire
    rw [hXw, find?_filter_ne]

/-- Witness for C6 at the state holding A's wait entry (timer handle 0). -/
theorem wait_expiry_exactly_once_witness :
    ("A" : String) ≠ "" ∧
    mapGet (run cfg0 initState wtrace).waitingImages "A" =
      some { style := 2, timeout := 0 } ∧
    (({ style := 2, timeout := 0 } : WaitingImage)).timeout = 0 ∧
    ((0 : Nat), ("A" : String)) ∈ (run cfg0 initState wtrace).waitTimers ∧
    (((run cfg0 initState wtrace).waitTimers.map Prod.fst)).Nodup ∧
    waitTimerFire 0 (run cfg0 initState wtrace) =
      ({ run cfg0 initState wtrace with
          waitTimers := (run cfg0 initState wtrace).waitTimers.filter
            (fun q => q.1 != 0),
          waitingImages :=
            mapDelete (run cfg0 initState wtrace).waitingImages "A",
          processingUsers :=
            setDelete (run cfg0 initState wtrace).processingUsers "A" },
       [Effect.sendText "A" "等待超时，请重新发送指令"]) :=
  ⟨by decide, by decide, by decide, by decide, by decide,
   (wait_expiry_exactly_once cfg0 0 "A" { style := 2, timeout := 0 }
     (run cfg0 initState wtrace) (by decide) (by decide) (by decide)
     (by decide) (by decide)).1⟩

/-- C7 counterexample: a poll whose status query fails (transport error)
when the resulting attempt count is 5 — a multiple of 5, with the limit not
reached — emits NO progress notice: its only effect is the remote query.
The claim's assertion that the every-5th-attempt notice also holds on the
transport-error branch is false; the source only emits it on the
still-running branch. -/
theorem progress_notice_cex :
    (t4.pollCount + 1) % 5 = 0 ∧
    t4.pollCount + 1 < cfg0.maxPollAttempts ∧
    (pollTaskStatus cfg0 117000 t4 none initState).2 =
      [Effect.remoteQuery "k"] := by decide

/-- C7 (amended): on the still-running branch (status query parsed, images
absent or empty) below the attempt limit, the resulting state is the same
reschedule regardless of the attempt count, and the elapsed-time progress
notice is appended exactly when the new count is a multiple of 5; the
transport-error branch reschedules identically but never emits the notice. -/
theorem progress_notice_fifth_attempt (cfg : Config) (now : Nat)
    (t : TaskInfo) (r : TaskResult) (s : PluginState)
    (hlimit : t.pollCount + 1 < cfg.maxPollAttempts)
    (himgs : r.images = none ∨ r.images = some []) :
    pollTaskStatus cfg now t (some r) s =
      (schedulePoll s { t with pollCount := t.pollCount + 1 },
       [Effect.remoteQuery t.requestId]
         ++ (if (t.pollCount + 1) % 5 = 0 then
               [Effect.sendText t.userId ("⏳ 正在手办化生成中... (已等待 "
                 ++ toString ((now - t.startTime) / 1000) ++ " 秒，风格"
                 ++ toString t.style ++ ")")]
             else [])) ∧
    pollTaskStatus cfg now t none s =
      (schedulePoll s { t with pollCount := t.pollCount + 1 },
       [Effect.remoteQuery t.requestId]) := by
  obtain ⟨sd, io, pr, nc⟩ := r
  constructor
  · rcases himgs with h | h
    · have h2 : io = none := h
      subst h2
      unfold pollTaskStatus
      try dsimp only
      rw [if_neg (by omega : ¬(t.pollCount + 1 ≥ cfg.maxPollAttempts))]
      rfl
    · have h2 : io = some [] := h
      subst h2
      unfold pollTaskStatus
      try dsimp only
      rw [if_neg (by omega : ¬(t.pollCount + 1 ≥ cfg.maxPollAttempts))]
      rfl
  · unfold pollTaskStatus
    try dsimp only
    rw [if_neg (by omega : ¬(t.pollCount + 1 ≥ cfg.maxPollAttempts))]

/-- Witness for C7's amended theorem at the concrete near-5th-attempt task. -/
theorem progress_notice_fifth_attempt_witness :
    t4.pollCount + 1 < cfg0.maxPollAttempts ∧
    (emptyResult.images = none ∨ emptyResult.images = some []) ∧
    pollTaskStatus cfg0 117000 t4 (some emptyResult) initState =
      (schedulePoll initState { t4 with pollCount := t4.pollCount + 1 },
       [Effect.remoteQuery t4.requestId]
         ++ (if (t4.pollCount + 1) % 5 = 0 then
               [Effect.sendText t4.userId ("⏳ 正在手办化生成中... (已等待 "
                 ++ toString ((117000 - t4.startTime) / 1000) ++ " 秒，风格"
                 ++ toString t4.style ++ ")")]
             else [])) :=
  ⟨by decide, by decide,
   (progress_notice_fifth_attempt cfg0 117000 t4 emptyResult initState
     (by decide) (by decide)).1⟩

/-- C8: below the attempt limit, a poll is a Success delivery (it sends
result images) iff the status response carries a non-empty `images` array;
every other response shape — transport error (`none`), missing `images`
field, or empty array — leaves the job and gate untouched and reschedules a
poll with the attempt counter incremented, rather than terminating with an
error. -/
theorem poll_success_classification (cfg : Config) (now : Nat)
    (t : TaskInfo) (q : Option TaskResult) (s : PluginState)
    (hlimit : t.pollCount + 1 < cfg.maxPollAttempts) :
    ((∃ url, Effect.sendImage t.userId url ∈ (pollTaskStatus cfg now t q s).2)
      ↔ (∃ r imgs, q = some r ∧ r.images = some imgs ∧ imgs ≠ [])) ∧
    ((q = none ∨ (∃ r, q = some r ∧ (r.images = none ∨ r.images = some [])))
      → (pollTaskStatus cfg now t q s).1.activeTasks = s.activeTasks ∧
        (pollTaskStatus cfg now t q s).1.processingUsers
          = s.processingUsers ∧
        (pollTaskStatus cfg now t q s).1.pendingPolls = s.pendingPolls
          ++ [(s.nextTimerId, { t with pollCount := t.pollCount + 1 })]) := by
  rcases q with _ | r
  · have he : pollTaskStatus cfg now t none s =
        (schedulePoll s { t with pollCount := t.pollCount + 1 },
         [Effect.remoteQuery t.requestId]) := by
      unfold pollTaskStatus
      try dsimp only
      rw [if_neg (by omega : ¬(t.pollCount + 1 ≥ cfg.maxPollAttempts))]
    rw [he]
    constructor
    · simp
    · intro _
      exact ⟨rfl, rfl, rfl⟩
  · obtain ⟨sd, io, pr, nc⟩ := r
    rcases io with _ | l
    · have he : pollTaskStatus cfg now t
          (some { seed := sd, images := none, prompt := pr,
                  has_nsfw_concepts := nc }) s =
          (schedulePoll s { t with pollCount := t.pollCount + 1 },
           [Effect.remoteQuery t.requestId]
             ++ (if (t.pollCount + 1) % 5 = 0 then
                   [Effect.sendText t.userId ("⏳ 正在手办化生成中... (已等待 "
                     ++ toString ((now - t.startTime) / 1000) ++ " 秒，风格"
                     ++ toString t.style ++ ")")]
                 else [])) := by
        unfold pollTaskStatus
        try dsimp only
        rw [if_neg (by omega : ¬(t.pollCount + 1 ≥ cfg.maxPollAttempts))]
        rfl
      rw [he]
      constructor
      · by_cases hmod : (t.pollCount + 1) % 5 = 0
        · rw [if_pos hmod]
          simp
        · rw [if_neg hmod]
          simp
      · intro _
        exact ⟨rfl, rfl, rfl⟩
    · rcases l with _ | ⟨x, xs⟩
      · have he : pollTaskStatus cfg now t
            (some { seed := sd, images := some [], prompt := pr,
                    has_nsfw_concepts := nc }) s =
            (schedulePoll s { t with pollCount := t.pollCount + 1 },
             [Effect.remoteQuery t.requestId]
               ++ (if (t.pollCount + 1) % 5 = 0 then
                     [Effect.sendText t.userId ("⏳ 正在手办化生成中... (已等待 "
                       ++ toString ((now - t.startTime) / 1000) ++ " 秒，风格"
                       ++ toString t.style ++ ")")]
                   else [])) := by
          unfold pollTaskStatus
          try dsimp only
          rw [if_neg (by omega : ¬(t.pollCount + 1 ≥ cfg.maxPollAttempts))]
          rfl
        rw [he]
        constructor
        · by_cases hmod : (t.pollCount + 1) % 5 = 0
          · rw [if_pos hmod]
            simp
          · rw [if_neg hmod]
            simp
        · intro _
          exact ⟨rfl, rfl, rfl⟩
      · have he : pollTaskStatus cfg now t
            (some { seed := sd, images := some (x :: xs), prompt := pr,
                    has_nsfw_concepts := nc }) s =
            ({ s with
                processingUsers := setDelete s.processingUsers t.userId,
                activeTasks := mapDelete s.activeTasks t.requestId },
             [Effect.remoteQuery t.requestId]
               ++ (x :: xs).map (fun i => Effect.sendImage t.userId i.url)
               ++ [Effect.sendText t.userId ("✅ 手办化完成！\n🎨 风格: "
                    ++ toString t.style ++ "\n🖼️ 图片数量: "
                    ++ toString (x :: xs).length)]) := by
          unfold pollTaskStatus
          try dsimp only
          rw [if_pos (by simp : ((x :: xs).length > 0))]
        rw [he]
        constructor
        · constructor
          · intro _
            exact ⟨_, x :: xs, rfl, rfl, by simp⟩
          · intro _
            exact ⟨x.url, by simp⟩
        · rintro (h | ⟨r', hq, himg⟩)
          · cases h
          · injection hq with h'
            subst h'
            rcases himg with h | h <;> simp at h

/-- Witness for C8 at a concrete successful response. -/
theorem poll_success_classification_witness :
    t4.pollCount + 1 < cfg0.maxPollAttempts ∧
    ((∃ url, Effect.sendImage t4.userId url ∈
        (pollTaskStatus cfg0 300 t4 (some doneResult) initState).2)
      ↔ (∃ r imgs, (some doneResult : Option TaskResult) = some r ∧
          r.images = some imgs ∧ imgs ≠ [])) :=
  ⟨by decide,
   (poll_success_classification cfg0 300 t4 (some doneResult) initState
     (by decide)).1⟩

/-- C9 counterexample: the style argument 0 lies outside the configured
preset range [1,4], yet the command does NOT return the InvalidStyle
response: JS `Number(style) || defaultStyle` treats 0 as falsy and
substitutes the default style, so the command proceeds — here all the way to
inserting a Job for request "k" — with no reply at all. -/
theorem style_zero_cex :
    ((0 : Int) < 1 ∨ (0 : Int) > (cfg0.figurinePresets.length : Int)) ∧
    (figurineCommand cfg0 100 (some "A") (some 0) ["http://i"]
      (okResp "k" 0) initState).2.2 = none ∧
    mapGet (figurineCommand cfg0 100 (some "A") (some 0) ["http://i"]
      (okResp "k" 0) initState).1.activeTasks "k" ≠ none := by decide

/-- C9 (amended): for every command whose style argument is nonzero and
outside the configured preset range, the command returns the InvalidStyle
reply synchronously with no effects (so no remote call) and no state change
whatever the prior state. -/
theorem invalid_style_rejected (cfg : Config) (now : Nat)
    (userId : Option String) (v : Int) (images : List String)
    (sr : Except String YunwuApiResponse) (s : PluginState)
    (hv : v ≠ 0) (hr : v < 1 ∨ v > (cfg.figurinePresets.length : Int)) :
    figurineCommand cfg now userId (some v) images sr s =
      (s, [], some ("风格参数必须在1-" ++ toString cfg.figurinePresets.length
        ++ "之间")) := by
  unfold figurineCommand
  have hj : jsNumOr (some v) cfg.defaultStyle = v := by simp [jsNumOr, hv]
  rw [hj, if_pos hr]

/-- Witness for C9's amended theorem at style 9. -/
theorem invalid_style_rejected_witness :
    (9 : Int) ≠ 0 ∧
    ((9 : Int) < 1 ∨ (9 : Int) > (cfg0.figurinePresets.length : Int)) ∧
    figurineCommand cfg0 100 (some "A") (some 9) ["http://i"]
        (okResp "k" 0) initState =
      (initState, [],
       some ("风格参数必须在1-" ++ toString cfg0.figurinePresets.length
         ++ "之间")) :=
  ⟨by decide, by decide,
   invalid_style_rejected cfg0 100 (some "A") 9 ["http://i"] (okResp "k" 0)
     initState (by decide) (by decide)⟩

/-- C10: the observable behaviour of every event, and of every trace, is
independent of the configured `maxImageSize`: two configurations differing
only in that field produce identical step outputs (state, effects, reply)
and identical final states.  The only function reading `maxImageSize` is
`checkImageSize`, which no handler invokes. -/
theorem maxImageSize_noninterference (c : Config) (m1 m2 : Nat) :
    (∀ (s : PluginState) (e : Event),
      step { c with maxImageSize := m1 } s e =
        step { c with maxImageSize := m2 } s e) ∧
    (∀ (tr : List Event) (s : PluginState),
      run { c with maxImageSize := m1 } s tr =
        run { c with maxImageSize := m2 } s tr) := by
  have hstep : ∀ (s : PluginState) (e : Event),
      step { c with maxImageSize := m1 } s e =
        step { c with maxImageSize := m2 } s e := by
    intro s e
    cases e <;> rfl
  refine ⟨hstep, ?_⟩
  intro tr
  induction tr with
  | nil => intro s; rfl
  | cons e es ih =>
    intro s
    show run _ (step { c with maxImageSize := m1 } s e).state es = _
    rw [hstep s e]
    exact ih _
